import Mathlib

/-!
Shallow embedding of the interactive 2D drafting engine (shapes, snapping,
alignment, resize, measurements) and proofs about it.

Modelling conventions, shared by every definition below:

* World and local coordinates are points of the drawing plane, modelled as
  pairs of real numbers (`Vec2`).  The source stores `THREE.Vector3` values,
  but every shape lives in the XY plane, every rotation is about the Z axis
  and every transform used by the embedded code acts componentwise on Z, so
  the XY part is an exact, decoupled subsystem.
* A mesh's rotation about Z is represented by the pair
  (`rotCos`, `rotSin`) = (cos rotation.z, sin rotation.z): the embedded code
  only ever reads the angle through its cosine and sine (rotation matrices,
  `Math.cos(-rot)` / `Math.sin(-rot)`), never the raw angle.
* `geometry.computeBoundingBox()` followed by reads of
  `geometry.boundingBox` is modelled by folding min/max over the mesh's
  vertex list (`bboxMin` / `bboxMax`).
* Euclidean distance (`Vector3.distanceTo`) is `Real.sqrt` of the squared
  distance; definitions that branch on real comparisons use classical
  decidability, mirroring exact-real arithmetic where the source uses
  floating point.
-/

open Classical

namespace Drafting

noncomputable section

/-- A point (or vector) of the drawing plane. -/
@[ext] structure Vec2 where
  x : ℝ
  y : ℝ

namespace Vec2

def add (a b : Vec2) : Vec2 := ⟨a.x + b.x, a.y + b.y⟩

def sub (a b : Vec2) : Vec2 := ⟨a.x - b.x, a.y - b.y⟩

def smul (t : ℝ) (a : Vec2) : Vec2 := ⟨t * a.x, t * a.y⟩

/-- `Vector3.dot` restricted to the plane. -/
def dot (a b : Vec2) : ℝ := a.x * b.x + a.y * b.y

/-- `Vector3.lengthSq` restricted to the plane. -/
def lengthSq (a : Vec2) : ℝ := a.x ^ 2 + a.y ^ 2

end Vec2

/-- `Vector3.length`. -/
def lenV (a : Vec2) : ℝ := Real.sqrt a.lengthSq

/-- `Vector3.distanceTo`: Euclidean distance of two plane points. -/
def distV (a b : Vec2) : ℝ := lenV (a.sub b)

/-- `THREE.Vector3.normalize()`: divide by `length() || 1`, so the zero
vector is left unchanged. -/
def normalizeV (a : Vec2) : Vec2 :=
  Vec2.smul (1 / (if lenV a = 0 then 1 else lenV a)) a

/-- Rotation about the Z axis given by (cos θ, sin θ). -/
def rot (c s : ℝ) (v : Vec2) : Vec2 :=
  ⟨v.x * c - v.y * s, v.x * s + v.y * c⟩

/-- A shape mesh: identifier, TRS transform (rotation about Z stored through
its cosine and sine) and the local-space vertices of its geometry. -/
structure Mesh where
  uuid : ℕ
  position : Vec2
  rotCos : ℝ
  rotSin : ℝ
  scale : Vec2
  verts : List Vec2

/-- `geometry.boundingBox.min` after `computeBoundingBox()`: componentwise
minimum over the geometry's vertices (the source never reads the bounding
box of an empty geometry; the `[]` case is a don't-care default). -/
def bboxMin : List Vec2 → Vec2
  | [] => ⟨0, 0⟩
  | v :: vs => vs.foldl (fun m w => ⟨min m.x w.x, min m.y w.y⟩) v

/-- `geometry.boundingBox.max` after `computeBoundingBox()`. -/
def bboxMax : List Vec2 → Vec2
  | [] => ⟨0, 0⟩
  | v :: vs => vs.foldl (fun m w => ⟨max m.x w.x, max m.y w.y⟩) v

/-- `boundingBox.max.x - boundingBox.min.x`. -/
def bboxWidth (vs : List Vec2) : ℝ := (bboxMax vs).x - (bboxMin vs).x

/-- `boundingBox.max.y - boundingBox.min.y`. -/
def bboxHeight (vs : List Vec2) : ℝ := (bboxMax vs).y - (bboxMin vs).y

/-- `Object3D.localToWorld` for a TRS transform with rotation about Z:
scale, then rotate, then translate. -/
def localToWorld (m : Mesh) (p : Vec2) : Vec2 :=
  (rot m.rotCos m.rotSin ⟨p.x * m.scale.x, p.y * m.scale.y⟩).add m.position

/-- `worldToLocal` from `trackMeasurement.ts` (a wrapper around
`Object3D.worldToLocal`): inverse translate, inverse rotate
(cos(-θ) = cos θ, sin(-θ) = -sin θ), inverse scale. -/
def worldToLocal (q : Vec2) (m : Mesh) : Vec2 :=
  let r := rot m.rotCos (-m.rotSin) (q.sub m.position)
  ⟨r.x / m.scale.x, r.y / m.scale.y⟩

/-- `getNormalizedCoordinates` from `trackMeasurement.ts`: express a local
point as a fraction of the geometry's bounding box, with a 0.5 fallback on
a degenerate axis. -/
def getNormalizedCoordinates (localPoint : Vec2) (m : Mesh) : Vec2 :=
  let bmin := bboxMin m.verts
  let width := bboxWidth m.verts
  let height := bboxHeight m.verts
  ⟨if 0 < width then (localPoint.x - bmin.x) / width else 0.5,
   if 0 < height then (localPoint.y - bmin.y) / height else 0.5⟩

/-- `normalizedToWorld` from `trackMeasurement.ts`: map normalized
bounding-box coordinates back to a local point and through the mesh's
current local-to-world transform. -/
def normalizedToWorld (normalized : Vec2) (m : Mesh) : Vec2 :=
  let bmin := bboxMin m.verts
  let width := bboxWidth m.verts
  let height := bboxHeight m.verts
  localToWorld m ⟨bmin.x + normalized.x * width, bmin.y + normalized.y * height⟩

/-- A mesh is non-degenerate when its geometry's bounding box has positive
extent on both axes and its scale is invertible. -/
def NonDegenerate (m : Mesh) : Prop :=
  0 < bboxWidth m.verts ∧ 0 < bboxHeight m.verts ∧ m.scale.x ≠ 0 ∧ m.scale.y ≠ 0

/-- The stored (cos, sin) pair is an actual rotation. -/
def IsRotation (m : Mesh) : Prop := m.rotCos ^ 2 + m.rotSin ^ 2 = 1

/-- Normalizing a local point and mapping it back is the plain
local-to-world transform as long as both bounding-box extents are
positive. -/
lemma normalizedToWorld_getNormalizedCoordinates (m : Mesh) (l : Vec2)
    (hw : 0 < bboxWidth m.verts) (hh : 0 < bboxHeight m.verts) :
    normalizedToWorld (getNormalizedCoordinates l m) m = localToWorld m l := by
  unfold normalizedToWorld getNormalizedCoordinates
  simp only [if_pos hw, if_pos hh]
  congr 1
  ext
  · exact by dsimp; field_simp
  · exact by dsimp; field_simp

/-- The local-to-world transform undoes `worldToLocal` when the scale is
invertible. -/
lemma localToWorld_worldToLocal (m : Mesh) (q : Vec2)
    (hrot : IsRotation m) (hsx : m.scale.x ≠ 0) (hsy : m.scale.y ≠ 0) :
    localToWorld m (worldToLocal q m) = q := by
  unfold IsRotation at hrot
  unfold localToWorld worldToLocal rot Vec2.add Vec2.sub
  dsimp only
  rw [div_mul_cancel₀ _ hsx, div_mul_cancel₀ _ hsy]
  ext
  · exact by dsimp; linear_combination (q.x - m.position.x) * hrot
  · exact by dsimp; linear_combination (q.y - m.position.y) * hrot

/-- C5: for every point `p` and every non-degenerate shape,
`normalizedToWorld (getNormalizedCoordinates (worldToLocal p shape) shape) shape = p`. -/
theorem roundTrip_normalized_world (m : Mesh) (p : Vec2)
    (hrot : IsRotation m) (hnd : NonDegenerate m) :
    normalizedToWorld (getNormalizedCoordinates (worldToLocal p m) m) m = p := by
  obtain ⟨hw, hh, hsx, hsy⟩ := hnd
  rw [normalizedToWorld_getNormalizedCoordinates m _ hw hh,
    localToWorld_worldToLocal m p hrot hsx hsy]

/-- Witness for C5 at a concrete rotated, non-uniformly scaled mesh. -/
theorem roundTrip_normalized_world_witness :
    normalizedToWorld
      (getNormalizedCoordinates
        (worldToLocal ⟨7, -3⟩
          ⟨0, ⟨1, 2⟩, 3/5, 4/5, ⟨2, 1⟩, [⟨0, 0⟩, ⟨2, 1⟩]⟩)
        ⟨0, ⟨1, 2⟩, 3/5, 4/5, ⟨2, 1⟩, [⟨0, 0⟩, ⟨2, 1⟩]⟩)
      ⟨0, ⟨1, 2⟩, 3/5, 4/5, ⟨2, 1⟩, [⟨0, 0⟩, ⟨2, 1⟩]⟩ = ⟨7, -3⟩ :=
  roundTrip_normalized_world _ _
    (by unfold IsRotation; norm_num)
    (by
      refine ⟨?_, ?_, by norm_num, by norm_num⟩ <;>
        · simp only [bboxWidth, bboxHeight, bboxMax, bboxMin, List.foldl]
          norm_num)

/-! ## Snap detection (`snapDetection.ts`, `snapEdges.ts`, `measureTool.ts`) -/

/-- `SnapPoint.type` in `snapDetection.ts`. -/
inductive SnapKind
  | vertex
  | midpoint
  | center
  | edge
deriving DecidableEq

/-- A snap point feature (`snapDetection.ts`). -/
structure SnapPoint where
  position : Vec2
  type : SnapKind
  shapeId : ℕ
  shapeName : Option String

/-- A snap edge feature (`snapEdges.ts`); the source's `end` field is
`endP` here because `end` is reserved in Lean. -/
structure SnapEdge where
  start : Vec2
  endP : Vec2
  shapeId : ℕ
  shapeName : Option String

/-- `findNearestSnapPoint`: nearest point feature within a hard 0.5
threshold, linear scan keeping the strictly closest candidate so far. -/
def findNearestSnapPoint (worldPosition : Vec2) (allSnapPoints : List SnapPoint) :
    Option SnapPoint :=
  (allSnapPoints.foldl
    (fun acc snap =>
      if distV worldPosition snap.position < acc.2 then
        (some snap, distV worldPosition snap.position)
      else acc)
    ((none : Option SnapPoint), (0.5 : ℝ))).1

/-- `closestPointOnSegment` from `snapEdges.ts`: clamped projection onto
the segment. -/
def closestPointOnSegment (point segmentStart segmentEnd : Vec2) : Vec2 :=
  let segmentVector := segmentEnd.sub segmentStart
  let pointVector := point.sub segmentStart
  let segmentLengthSquared := segmentVector.lengthSq
  if segmentLengthSquared = 0 then segmentStart
  else
    let projectionFactor := pointVector.dot segmentVector / segmentLengthSquared
    let clampedFactor := max 0 (min 1 projectionFactor)
    segmentStart.add (Vec2.smul clampedFactor segmentVector)

/-- `findNearestEdgeSnap` from `snapEdges.ts`: best projected point over
the given edges, starting from `bestDistance = snapThreshold`; a winning
edge yields a synthetic `SnapPoint` of kind `edge`. -/
def findNearestEdgeSnap (worldPosition : Vec2) (edges : List SnapEdge)
    (snapThreshold : ℝ) : Option SnapPoint :=
  (edges.foldl
    (fun acc edge =>
      let closestPoint := closestPointOnSegment worldPosition edge.start edge.endP
      let distanceToEdge := distV worldPosition closestPoint
      if distanceToEdge < acc.2 then
        (some ⟨closestPoint, SnapKind.edge, edge.shapeId, edge.shapeName⟩, distanceToEdge)
      else acc)
    ((none : Option SnapPoint), snapThreshold)).1

/-- Snap-resolution context of `measureTool.ts`: the module-level snap
flags together with the feature lists that `collectAllSnapPoints` /
`collectAllSnapEdges` produce for the current scene (scene traversal
itself belongs to the renderer collaborator). -/
structure SnapCtx where
  snapToPoints : Bool
  snapToEdges : Bool
  snapPoints : List SnapPoint
  snapEdges : List SnapEdge

/-- `getBestSnap` from `measureTool.ts`: nearest point feature within the
0.3 threshold, then every edge in turn, an edge winning only when its
projected distance beats the running best distance by more than the 0.05
point-priority bias.  The source's `bestDist = Infinity` is modelled as
`Option ℝ` with `none` for infinity. -/
def getBestSnap (ctx : SnapCtx) (mouseWorldPos : Vec2) :
    Option SnapPoint × Option SnapEdge :=
  let snapThreshold : ℝ := 0.3
  let pointPriorityBias : ℝ := 0.05
  let afterPoints : Option SnapPoint × Option SnapEdge × Option ℝ :=
    if ctx.snapToPoints then
      match findNearestSnapPoint mouseWorldPos ctx.snapPoints with
      | some pointSnap =>
          let d := distV mouseWorldPos pointSnap.position
          if d < snapThreshold then (some pointSnap, none, some d)
          else (none, none, none)
      | none => (none, none, none)
    else (none, none, none)
  let afterEdges :=
    if ctx.snapToEdges then
      ctx.snapEdges.foldl
        (fun acc edge =>
          match findNearestEdgeSnap mouseWorldPos [edge] snapThreshold with
          | none => acc
          | some candidate =>
              let d := distV mouseWorldPos candidate.position
              if d < snapThreshold ∧
                  (match acc.2.2 with
                   | none => True
                   | some bestDist => d < bestDist - pointPriorityBias) then
                (some candidate, some edge, some d)
              else acc)
        afterPoints
    else afterPoints
  (afterEdges.1, afterEdges.2.1)

/-- Evaluate `distV` at inputs whose squared distance is a perfect
square. -/
lemma distV_of_sq {a b : Vec2} {r : ℝ} (hr : 0 ≤ r)
    (h : (a.x - b.x) ^ 2 + (a.y - b.y) ^ 2 = r ^ 2) : distV a b = r := by
  rw [distV, lenV, Vec2.sub, Vec2.lengthSq]
  dsimp only
  rw [h, Real.sqrt_sq hr]

/-- C3: with point- and edge-snapping both enabled and one point feature
and one edge feature both within the 0.3 snap threshold of the cursor,
`getBestSnap` returns the edge's projected point exactly when the edge
distance is strictly below the point distance minus the 0.05 priority
bias, and the point feature otherwise — in particular an edge that is
closer by less than 0.05 still loses to the point. -/
theorem getBestSnap_point_priority (mouse : Vec2) (pt : SnapPoint) (e : SnapEdge)
    (hp : distV mouse pt.position < 0.3)
    (he : distV mouse (closestPointOnSegment mouse e.start e.endP) < 0.3) :
    getBestSnap ⟨true, true, [pt], [e]⟩ mouse =
      if distV mouse (closestPointOnSegment mouse e.start e.endP)
          < distV mouse pt.position - 0.05 then
        (some ⟨closestPointOnSegment mouse e.start e.endP, SnapKind.edge,
           e.shapeId, e.shapeName⟩, some e)
      else (some pt, none) := by
  have hp5 : distV mouse pt.position < 0.5 := lt_trans hp (by norm_num)
  have hnear : findNearestSnapPoint mouse [pt] = some pt := by
    simp [findNearestSnapPoint, if_pos hp5]
  have hedge : findNearestEdgeSnap mouse [e] 0.3 =
      some ⟨closestPointOnSegment mouse e.start e.endP, SnapKind.edge,
        e.shapeId, e.shapeName⟩ := by
    simp [findNearestEdgeSnap, if_pos he]
  by_cases hwin :
      distV mouse (closestPointOnSegment mouse e.start e.endP)
        < distV mouse pt.position - 0.05
  · rw [if_pos hwin]
    simp only [getBestSnap, hnear, List.foldl, hedge, ite_true]
    rw [if_pos hp]
    dsimp only
    rw [if_pos ⟨he, hwin⟩]
  · rw [if_neg hwin]
    simp only [getBestSnap, hnear, List.foldl, hedge, ite_true]
    rw [if_pos hp]
    dsimp only
    rw [if_neg (by exact fun hc => hwin hc.2)]

/-- Witness for C3: edge projection at distance 0.08, point at distance
0.1 — the edge is closer, but by less than the 0.05 bias, so the point
feature wins. -/
theorem getBestSnap_point_priority_witness :
    getBestSnap
        ⟨true, true, [⟨⟨0.1, 0⟩, SnapKind.vertex, 1, none⟩],
          [⟨⟨0.08, -1⟩, ⟨0.08, 1⟩, 2, none⟩]⟩ ⟨0, 0⟩ =
      (some ⟨⟨0.1, 0⟩, SnapKind.vertex, 1, none⟩, none) := by
  have hq : closestPointOnSegment ⟨0, 0⟩ ⟨0.08, -1⟩ ⟨0.08, 1⟩ = ⟨0.08, 0⟩ := by
    rw [closestPointOnSegment, Vec2.sub, Vec2.sub]
    norm_num [Vec2.lengthSq, Vec2.dot, Vec2.add, Vec2.smul]
  have hdp : distV ⟨0, 0⟩ ⟨0.1, 0⟩ = 0.1 := distV_of_sq (by norm_num) (by norm_num)
  have hde : distV ⟨0, 0⟩ ⟨0.08, 0⟩ = 0.08 := distV_of_sq (by norm_num) (by norm_num)
  rw [getBestSnap_point_priority ⟨0, 0⟩ _ _ (by rw [hdp]; norm_num)
      (by rw [hq, hde]; norm_num)]
  rw [hq, hde, hdp, if_neg (by norm_num)]

/-! ## Alignment detection (`alignmentDetection.ts`) -/

/-- `AlignmentType`: the ten alignment relations. -/
inductive AlignmentType
  | centerX
  | centerY
  | edgeLeft
  | edgeRight
  | edgeTop
  | edgeBottom
  | edgeLeftToRight
  | edgeRightToLeft
  | edgeTopToBottom
  | edgeBottomToTop
deriving DecidableEq

/-- `AlignmentCandidate`. -/
structure AlignmentCandidate where
  type : AlignmentType
  targetShape : Mesh
  alignmentValue : ℝ
  distance : ℝ

/-- `ShapeBounds`. -/
structure ShapeBounds where
  mesh : Mesh
  centerX : ℝ
  centerY : ℝ
  left : ℝ
  right : ℝ
  top : ℝ
  bottom : ℝ
  width : ℝ
  height : ℝ

/-- `getShapeBounds`: axis-aligned world bounds of the four transformed
bounding-box corners; the center is the mesh position, not the box
center. -/
def getShapeBounds (mesh : Mesh) : ShapeBounds :=
  let bmin := bboxMin mesh.verts
  let bmax := bboxMax mesh.verts
  let toWorld := fun (corner : Vec2) =>
    (rot mesh.rotCos mesh.rotSin ⟨corner.x * mesh.scale.x, corner.y * mesh.scale.y⟩).add
      mesh.position
  let c0 := toWorld ⟨bmin.x, bmin.y⟩
  let c1 := toWorld ⟨bmax.x, bmin.y⟩
  let c2 := toWorld ⟨bmax.x, bmax.y⟩
  let c3 := toWorld ⟨bmin.x, bmax.y⟩
  let left := min (min (min c0.x c1.x) c2.x) c3.x
  let right := max (max (max c0.x c1.x) c2.x) c3.x
  let bottom := min (min (min c0.y c1.y) c2.y) c3.y
  let top := max (max (max c0.y c1.y) c2.y) c3.y
  { mesh := mesh
    centerX := mesh.position.x
    centerY := mesh.position.y
    left := left
    right := right
    top := top
    bottom := bottom
    width := right - left
    height := top - bottom }

/-- The candidates `findAlignmentCandidates` pushes for one target shape,
in source order: the two center checks, the four same-edge checks, the
four adjacent-edge checks. -/
def candidatesForTarget (draggedBounds : ShapeBounds) (targetShape : Mesh)
    (snapThreshold : ℝ) : List AlignmentCandidate :=
  let targetBounds := getShapeBounds targetShape
  (if |draggedBounds.centerX - targetBounds.centerX| < snapThreshold then
    [⟨AlignmentType.centerX, targetShape, targetBounds.centerX,
      |draggedBounds.centerX - targetBounds.centerX|⟩] else [])
  ++ (if |draggedBounds.centerY - targetBounds.centerY| < snapThreshold then
    [⟨AlignmentType.centerY, targetShape, targetBounds.centerY,
      |draggedBounds.centerY - targetBounds.centerY|⟩] else [])
  ++ (if |draggedBounds.left - targetBounds.left| < snapThreshold then
    [⟨AlignmentType.edgeLeft, targetShape, targetBounds.left,
      |draggedBounds.left - targetBounds.left|⟩] else [])
  ++ (if |draggedBounds.right - targetBounds.right| < snapThreshold then
    [⟨AlignmentType.edgeRight, targetShape, targetBounds.right,
      |draggedBounds.right - targetBounds.right|⟩] else [])
  ++ (if |draggedBounds.top - targetBounds.top| < snapThreshold then
    [⟨AlignmentType.edgeTop, targetShape, targetBounds.top,
      |draggedBounds.top - targetBounds.top|⟩] else [])
  ++ (if |draggedBounds.bottom - targetBounds.bottom| < snapThreshold then
    [⟨AlignmentType.edgeBottom, targetShape, targetBounds.bottom,
      |draggedBounds.bottom - targetBounds.bottom|⟩] else [])
  ++ (if |draggedBounds.left - targetBounds.right| < snapThreshold then
    [⟨AlignmentType.edgeLeftToRight, targetShape, targetBounds.right,
      |draggedBounds.left - targetBounds.right|⟩] else [])
  ++ (if |draggedBounds.right - targetBounds.left| < snapThreshold then
    [⟨AlignmentType.edgeRightToLeft, targetShape, targetBounds.left,
      |draggedBounds.right - targetBounds.left|⟩] else [])
  ++ (if |draggedBounds.top - targetBounds.bottom| < snapThreshold then
    [⟨AlignmentType.edgeTopToBottom, targetShape, targetBounds.bottom,
      |draggedBounds.top - targetBounds.bottom|⟩] else [])
  ++ (if |draggedBounds.bottom - targetBounds.top| < snapThreshold then
    [⟨AlignmentType.edgeBottomToTop, targetShape, targetBounds.top,
      |draggedBounds.bottom - targetBounds.top|⟩] else [])

/-- Comparison used by `candidates.sort((a, b) => a.distance - b.distance)`. -/
def distLE (a b : AlignmentCandidate) : Prop := a.distance ≤ b.distance

instance : DecidableRel distLE := fun a b => Real.decidableLE a.distance b.distance

instance : IsTotal AlignmentCandidate distLE := ⟨fun a b => le_total a.distance b.distance⟩

instance : IsTrans AlignmentCandidate distLE := ⟨fun _ _ _ hab hbc => le_trans hab hbc⟩

/-- `findAlignmentCandidates`: all qualifying candidates against every
other shape (self skipped by uuid), sorted ascending by distance. -/
def findAlignmentCandidates (draggedShape : Mesh) (allShapes : List Mesh)
    (snapThreshold : ℝ) : List AlignmentCandidate :=
  List.insertionSort distLE
    ((allShapes.map (fun targetShape =>
        if targetShape.uuid = draggedShape.uuid then []
        else candidatesForTarget (getShapeBounds draggedShape) targetShape snapThreshold)).flatten)

/-- The absolute coordinate difference each alignment type tests. -/
def alignDiff (d t : ShapeBounds) : AlignmentType → ℝ
  | AlignmentType.centerX => |d.centerX - t.centerX|
  | AlignmentType.centerY => |d.centerY - t.centerY|
  | AlignmentType.edgeLeft => |d.left - t.left|
  | AlignmentType.edgeRight => |d.right - t.right|
  | AlignmentType.edgeTop => |d.top - t.top|
  | AlignmentType.edgeBottom => |d.bottom - t.bottom|
  | AlignmentType.edgeLeftToRight => |d.left - t.right|
  | AlignmentType.edgeRightToLeft => |d.right - t.left|
  | AlignmentType.edgeTopToBottom => |d.top - t.bottom|
  | AlignmentType.edgeBottomToTop => |d.bottom - t.top|

/-- The `alignmentValue` each alignment type stores: the matched target
coordinate. -/
def alignValue (t : ShapeBounds) : AlignmentType → ℝ
  | AlignmentType.centerX => t.centerX
  | AlignmentType.centerY => t.centerY
  | AlignmentType.edgeLeft => t.left
  | AlignmentType.edgeRight => t.right
  | AlignmentType.edgeTop => t.top
  | AlignmentType.edgeBottom => t.bottom
  | AlignmentType.edgeLeftToRight => t.right
  | AlignmentType.edgeRightToLeft => t.left
  | AlignmentType.edgeTopToBottom => t.bottom
  | AlignmentType.edgeBottomToTop => t.top

lemma mem_candidatesForTarget (db : ShapeBounds) (t : Mesh) (thr : ℝ)
    (ty : AlignmentType) :
    (⟨ty, t, alignValue (getShapeBounds t) ty,
        alignDiff db (getShapeBounds t) ty⟩ : AlignmentCandidate)
        ∈ candidatesForTarget db t thr ↔
      alignDiff db (getShapeBounds t) ty < thr := by
  cases ty <;>
    simp [candidatesForTarget, alignDiff, alignValue, List.mem_append,
      AlignmentCandidate.mk.injEq, apply_ite (List.Mem _)]

lemma targetShape_of_mem_candidatesForTarget (db : ShapeBounds) (t : Mesh)
    (thr : ℝ) (c : AlignmentCandidate) (h : c ∈ candidatesForTarget db t thr) :
    c.targetShape = t := by
  simp only [candidatesForTarget, List.mem_append] at h
  rcases h with (((((((((h|h)|h)|h)|h)|h)|h)|h)|h)|h) <;>
    · split at h
      · rw [List.mem_singleton] at h
        subst h
        rfl
      · simp at h

/-- C9: for a dragged shape and any other shape in the scene,
`findAlignmentCandidates` contains the candidate of a given type (with
the target's matched coordinate and the absolute difference as distance)
exactly when that absolute coordinate difference is strictly below the
threshold; and the output is sorted ascending by distance. -/
theorem findAlignmentCandidates_spec (dragged t : Mesh) (shapes : List Mesh)
    (thr : ℝ) (htu : t.uuid ≠ dragged.uuid) (htm : t ∈ shapes) :
    (∀ ty : AlignmentType,
      (⟨ty, t, alignValue (getShapeBounds t) ty,
          alignDiff (getShapeBounds dragged) (getShapeBounds t) ty⟩ : AlignmentCandidate)
          ∈ findAlignmentCandidates dragged shapes thr ↔
        alignDiff (getShapeBounds dragged) (getShapeBounds t) ty < thr)
    ∧ List.Sorted distLE (findAlignmentCandidates dragged shapes thr) := by
  constructor
  · intro ty
    rw [findAlignmentCandidates]
    rw [List.Perm.mem_iff (List.perm_insertionSort distLE _)]
    constructor
    · intro hmem
      rw [List.mem_flatten] at hmem
      obtain ⟨l, hl, hcl⟩ := hmem
      rw [List.mem_map] at hl
      obtain ⟨tsh, htsh, rfl⟩ := hl
      by_cases he : tsh.uuid = dragged.uuid
      · rw [if_pos he] at hcl
        simp at hcl
      · rw [if_neg he] at hcl
        have heq : tsh = t := (targetShape_of_mem_candidatesForTarget _ _ _ _ hcl).symm
        rw [heq] at hcl
        exact (mem_candidatesForTarget _ t thr ty).mp hcl
    · intro hcond
      rw [List.mem_flatten]
      refine ⟨candidatesForTarget (getShapeBounds dragged) t thr, ?_,
        (mem_candidatesForTarget _ t thr ty).mpr hcond⟩
      rw [List.mem_map]
      exact ⟨t, htm, by rw [if_neg htu]⟩
  · exact List.sorted_insertionSort distLE _

/-- A unit plane mesh (2×2 local bounding box) used by concrete
examples. -/
def examplePlane (uuid : ℕ) (px py : ℝ) : Mesh :=
  ⟨uuid, ⟨px, py⟩, 1, 0, ⟨1, 1⟩, [⟨-1, -1⟩, ⟨1, -1⟩, ⟨1, 1⟩, ⟨-1, 1⟩]⟩

lemma examplePlane_left (uuid : ℕ) (px py : ℝ) :
    (getShapeBounds (examplePlane uuid px py)).left = px - 1 := by
  simp only [examplePlane, getShapeBounds, bboxMin, bboxMax, List.foldl, rot, Vec2.add]
  norm_num [min_def]
  ring

/-- Witness for C9: the spec's scenario — dragged plane with left edge at
x = 1, target plane with left edge at x = 1.02, threshold 0.5, giving an
edge-left candidate with distance 0.02. -/
theorem findAlignmentCandidates_spec_witness :
    (⟨AlignmentType.edgeLeft, examplePlane 1 2.02 5, 1.02, 0.02⟩ : AlignmentCandidate) ∈
      findAlignmentCandidates (examplePlane 0 2 0) [examplePlane 1 2.02 5] 0.5 := by
  have hmain := (findAlignmentCandidates_spec (examplePlane 0 2 0)
      (examplePlane 1 2.02 5) [examplePlane 1 2.02 5] 0.5
      (by simp [examplePlane]) (List.mem_singleton.mpr rfl)).1 AlignmentType.edgeLeft
  simp only [alignValue, alignDiff, examplePlane_left] at hmain
  have habs : |(2 : ℝ) - 1 - (2.02 - 1)| = 0.02 := by
    rw [abs_sub_comm, abs_of_nonneg (by norm_num)]
    norm_num
  rw [habs] at hmain
  have hval : (2.02 : ℝ) - 1 = 1.02 := by norm_num
  rw [hval] at hmain
  exact hmain.mpr (by norm_num)

/-- The candidate types drawn as vertical guide lines: the first family
tested by `getBestAlignments`. -/
def isVerticalGuideType (candidate : AlignmentCandidate) : Bool :=
  match candidate.type with
  | AlignmentType.centerX => true
  | AlignmentType.edgeLeft => true
  | AlignmentType.edgeRight => true
  | AlignmentType.edgeLeftToRight => true
  | AlignmentType.edgeRightToLeft => true
  | _ => false

/-- The candidate types drawn as horizontal guide lines: the second family
tested by `getBestAlignments`. -/
def isHorizontalGuideType (candidate : AlignmentCandidate) : Bool :=
  match candidate.type with
  | AlignmentType.centerY => true
  | AlignmentType.edgeTop => true
  | AlignmentType.edgeBottom => true
  | AlignmentType.edgeTopToBottom => true
  | AlignmentType.edgeBottomToTop => true
  | _ => false

/-- The loop body of `getBestAlignments`, including the early `break`
once both slots are filled. -/
def getBestAlignmentsAux :
    Option AlignmentCandidate → Option AlignmentCandidate →
      List AlignmentCandidate →
      Option AlignmentCandidate × Option AlignmentCandidate
  | horizontal, vertical, [] => (horizontal, vertical)
  | horizontal, vertical, candidate :: rest =>
    let vertical' :=
      if vertical.isNone && isVerticalGuideType candidate then some candidate
      else vertical
    let horizontal' :=
      if horizontal.isNone && isHorizontalGuideType candidate then some candidate
      else horizontal
    if horizontal'.isSome && vertical'.isSome then (horizontal', vertical')
    else getBestAlignmentsAux horizontal' vertical' rest

/-- `getBestAlignments`: walk the candidate list once, taking the first
vertical-family candidate and the first horizontal-family candidate. -/
def getBestAlignments (candidates : List AlignmentCandidate) :
    Option AlignmentCandidate × Option AlignmentCandidate :=
  getBestAlignmentsAux none none candidates

lemma getBestAlignmentsAux_eq (cs : List AlignmentCandidate)
    (h v : Option AlignmentCandidate) :
    getBestAlignmentsAux h v cs =
      ((match h with
        | some a => some a
        | none => cs.find? isHorizontalGuideType),
       (match v with
        | some a => some a
        | none => cs.find? isVerticalGuideType)) := by
  induction cs generalizing h v with
  | nil => cases h <;> cases v <;> simp [getBestAlignmentsAux]
  | cons c rest ih =>
    rw [getBestAlignmentsAux]
    cases h with
    | some a =>
      cases v with
      | some b => simp [getBestAlignmentsAux]
      | none =>
        by_cases hcv : isVerticalGuideType c = true
        · simp [hcv, List.find?_cons_of_pos]
        · simp only [Option.isNone_some, Bool.false_and, if_false,
            Option.isNone_none, Bool.true_and]
          rw [if_neg (by simp [hcv]), ih]
          simp [List.find?_cons_of_neg _ hcv, hcv]
    | none =>
      cases v with
      | some b =>
        by_cases hch : isHorizontalGuideType c = true
        · simp [hch, List.find?_cons_of_pos]
        · simp only [Option.isNone_some, Bool.false_and, if_false,
            Option.isNone_none, Bool.true_and]
          rw [if_neg (by simp [hch]), ih]
          simp [List.find?_cons_of_neg _ hch, hch]
      | none =>
        by_cases hcv : isVerticalGuideType c = true <;>
          by_cases hch : isHorizontalGuideType c = true
        · simp [hcv, hch, List.find?_cons_of_pos]
        · simp only [Option.isNone_none, Bool.true_and, hcv, if_true, hch,
            if_false, Option.isSome_none, Bool.and_false, Option.isSome_some,
            Bool.false_and]
          rw [ih]
          simp [List.find?_cons_of_pos _ hcv, List.find?_cons_of_neg _ hch]
        · simp only [Option.isNone_none, Bool.true_and, hcv, if_false, hch,
            if_true, Option.isSome_none, Bool.and_false, Option.isSome_some,
            Bool.false_and]
          rw [ih]
          simp [List.find?_cons_of_neg _ hcv, List.find?_cons_of_pos _ hch]
        · simp only [Option.isNone_none, Bool.true_and, hcv, hch, if_false,
            Option.isSome_none, Bool.and_false, Bool.false_and]
          rw [ih]
          simp [List.find?_cons_of_neg _ hcv, List.find?_cons_of_neg _ hch]

/-- In a list sorted ascending by distance, the first candidate matching a
predicate has minimal distance among all matching candidates. -/
lemma find?_min_of_sorted (p : AlignmentCandidate → Bool)
    (cs : List AlignmentCandidate) (hs : List.Sorted distLE cs)
    (c : AlignmentCandidate) (hf : cs.find? p = some c) :
    ∀ c' ∈ cs, p c' = true → c.distance ≤ c'.distance := by
  induction cs with
  | nil => simp at hf
  | cons a l ih =>
    rcases List.sorted_cons.mp hs with ⟨ha, hl⟩
    by_cases hpa : p a = true
    · rw [List.find?_cons_of_pos _ hpa, Option.some.injEq] at hf
      subst hf
      intro c' hc' _
      rcases List.mem_cons.mp hc' with rfl | hmem
      · exact le_refl _
      · exact ha c' hmem
    · rw [List.find?_cons_of_neg _ hpa] at hf
      intro c' hc' hpc'
      rcases List.mem_cons.mp hc' with rfl | hmem
      · exact absurd hpc' hpa
      · exact ih hl hf c' hmem hpc'

/-- C6: for every candidate list, `getBestAlignments` returns at most one
candidate per axis family and never two from the same family — the
vertical slot only ever holds a vertical-family candidate (the first one
in the list) and the horizontal slot a horizontal-family candidate — and
when the list is sorted ascending by distance, each returned candidate is
the minimum-distance candidate of its family. -/
theorem getBestAlignments_exclusive (cs : List AlignmentCandidate) :
    (∀ c, (getBestAlignments cs).2 = some c →
      isVerticalGuideType c = true ∧ cs.find? isVerticalGuideType = some c)
    ∧ (∀ c, (getBestAlignments cs).1 = some c →
      isHorizontalGuideType c = true ∧ cs.find? isHorizontalGuideType = some c)
    ∧ (List.Sorted distLE cs →
      (∀ c, (getBestAlignments cs).2 = some c →
        ∀ c' ∈ cs, isVerticalGuideType c' = true → c.distance ≤ c'.distance)
      ∧ (∀ c, (getBestAlignments cs).1 = some c →
        ∀ c' ∈ cs, isHorizontalGuideType c' = true → c.distance ≤ c'.distance)) := by
  rw [getBestAlignments, getBestAlignmentsAux_eq]
  dsimp only
  refine ⟨fun c hc => ⟨List.find?_some hc, hc⟩,
    fun c hc => ⟨List.find?_some hc, hc⟩, fun hs => ⟨?_, ?_⟩⟩
  · exact fun c hc => find?_min_of_sorted _ cs hs c hc
  · exact fun c hc => find?_min_of_sorted _ cs hs c hc

/-- Witness for C6 on a concrete sorted candidate list: the vertical slot
picks the distance-0.1 edge-left candidate, which is first and minimal
among the vertical family. -/
theorem getBestAlignments_exclusive_witness :
    (isVerticalGuideType ⟨AlignmentType.edgeLeft, examplePlane 1 0 0, 1, 0.1⟩ = true ∧
      ([⟨AlignmentType.edgeLeft, examplePlane 1 0 0, 1, 0.1⟩,
        ⟨AlignmentType.centerY, examplePlane 1 0 0, 0, 0.2⟩,
        ⟨AlignmentType.centerX, examplePlane 1 0 0, 2, 0.3⟩] :
          List AlignmentCandidate).find? isVerticalGuideType =
        some ⟨AlignmentType.edgeLeft, examplePlane 1 0 0, 1, 0.1⟩) ∧
    ((⟨AlignmentType.edgeLeft, examplePlane 1 0 0, 1, 0.1⟩ :
        AlignmentCandidate).distance ≤
      (⟨AlignmentType.centerX, examplePlane 1 0 0, 2, 0.3⟩ :
        AlignmentCandidate).distance) := by
  have hsorted : List.Sorted distLE
      ([⟨AlignmentType.edgeLeft, examplePlane 1 0 0, 1, 0.1⟩,
        ⟨AlignmentType.centerY, examplePlane 1 0 0, 0, 0.2⟩,
        ⟨AlignmentType.centerX, examplePlane 1 0 0, 2, 0.3⟩] :
          List AlignmentCandidate) := by
    simp [List.sorted_cons, distLE]
    norm_num
  have hv : (getBestAlignments
      [⟨AlignmentType.edgeLeft, examplePlane 1 0 0, 1, 0.1⟩,
       ⟨AlignmentType.centerY, examplePlane 1 0 0, 0, 0.2⟩,
       ⟨AlignmentType.centerX, examplePlane 1 0 0, 2, 0.3⟩]).2 =
      some ⟨AlignmentType.edgeLeft, examplePlane 1 0 0, 1, 0.1⟩ := by
    rw [getBestAlignments, getBestAlignmentsAux_eq]
    rfl
  refine ⟨(getBestAlignments_exclusive _).1 _ hv, ?_⟩
  exact ((getBestAlignments_exclusive _).2.2 hsorted).1 _ hv _ (by simp) rfl



/-! ## Plane resize (`planeResize.ts`) -/

/-- `activePlaneHandleRole` values. -/
inductive PlaneHandleRole
  | planeRight
  | planeTop
deriving DecidableEq

/-- The module-level state captured by `beginPlaneResize` (the outline
cache is omitted: it duplicates the mesh cache for the outline child and
feeds only the outline's vertex buffer). -/
structure PlaneResizeState where
  activePlaneHandleRole : Option PlaneHandleRole
  initialPlaneCenter : Vec2
  initialWidth : ℝ
  initialHeight : ℝ
  initialMouseLocal : Vec2
  meshUnitPositionCache : Option (List Vec2)

/-- `beginPlaneResize`: capture center, bounding-box extents (clamped to
0.1 when below 0.001) and the unit-normalized vertex cache. -/
def beginPlaneResize (role : PlaneHandleRole) (mesh : Mesh) : PlaneResizeState :=
  let w0 := bboxWidth mesh.verts
  let h0 := bboxHeight mesh.verts
  let initialWidth := if w0 < 0.001 then 0.1 else w0
  let initialHeight := if h0 < 0.001 then 0.1 else h0
  { activePlaneHandleRole := some role
    initialPlaneCenter := mesh.position
    initialWidth := initialWidth
    initialHeight := initialHeight
    initialMouseLocal := ⟨0, 0⟩
    meshUnitPositionCache :=
      some (mesh.verts.map (fun v => ⟨v.x / initialWidth, v.y / initialHeight⟩)) }

/-- The pointer position re-projected into the shape's rotated local frame
about the captured center: translate, then rotate by the negated mesh
rotation (`cos(-θ) = cos θ`, `sin(-θ) = -sin θ`). -/
def resizeMouseLocal (center : Vec2) (mesh : Mesh) (mouseWorldPosition : Vec2) : Vec2 :=
  let c := mesh.rotCos
  let s := -mesh.rotSin
  let relativeX := mouseWorldPosition.x - center.x
  let relativeY := mouseWorldPosition.y - center.y
  ⟨relativeX * c - relativeY * s, relativeX * s + relativeY * c⟩

/-- `updatePlaneResize`: a tick with `initialMouseLocal = (0,0)` only
captures the local reference point; a later tick derives the new extents
(minimum 0.2, shift preserving the aspect ratio) and rewrites every cached
unit vertex as `unit * newExtent`.  The side calls (selection helpers,
measurement re-sync, dimension refresh, metadata) touch state outside this
geometry model. -/
def updatePlaneResize (state : PlaneResizeState) (mesh : Mesh)
    (mouseWorldPosition : Vec2) (shiftKey : Bool) : PlaneResizeState × Mesh :=
  match state.activePlaneHandleRole, state.meshUnitPositionCache with
  | some role, some cache =>
    let mouseLocal := resizeMouseLocal state.initialPlaneCenter mesh mouseWorldPosition
    if state.initialMouseLocal.x = 0 ∧ state.initialMouseLocal.y = 0 then
      ({ state with initialMouseLocal := mouseLocal }, mesh)
    else
      let wh : ℝ × ℝ :=
        match role with
        | PlaneHandleRole.planeRight =>
          let localOffsetX := |mouseLocal.x|
          let newWidth := max (localOffsetX * 2) 0.2
          (newWidth,
           if shiftKey then state.initialHeight * (newWidth / state.initialWidth)
           else state.initialHeight)
        | PlaneHandleRole.planeTop =>
          let localOffsetY := |mouseLocal.y|
          let newHeight := max (localOffsetY * 2) 0.2
          ((if shiftKey then state.initialWidth * (newHeight / state.initialHeight)
            else state.initialWidth),
           newHeight)
      (state,
       { mesh with verts := cache.map (fun u => ⟨u.x * wh.1, u.y * wh.2⟩) })
  | _, _ => (state, mesh)

lemma bboxFoldlMin_map_mul (a b : ℝ) (ha : 0 ≤ a) (hb : 0 ≤ b) :
    ∀ (vs : List Vec2) (init : Vec2),
      (vs.map (fun v => (⟨v.x * a, v.y * b⟩ : Vec2))).foldl
          (fun m w => (⟨min m.x w.x, min m.y w.y⟩ : Vec2))
          (⟨init.x * a, init.y * b⟩ : Vec2) =
        (⟨(vs.foldl (fun m w => (⟨min m.x w.x, min m.y w.y⟩ : Vec2)) init).x * a,
          (vs.foldl (fun m w => (⟨min m.x w.x, min m.y w.y⟩ : Vec2)) init).y * b⟩ : Vec2)
  | [], init => by simp
  | w :: ws, init => by
    simp only [List.map_cons, List.foldl_cons]
    rw [show (⟨min (init.x * a) (w.x * a), min (init.y * b) (w.y * b)⟩ : Vec2)
        = ⟨min init.x w.x * a, min init.y w.y * b⟩ by
      rw [min_mul_of_nonneg _ _ ha, min_mul_of_nonneg _ _ hb]]
    exact bboxFoldlMin_map_mul a b ha hb ws ⟨min init.x w.x, min init.y w.y⟩

lemma bboxFoldlMax_map_mul (a b : ℝ) (ha : 0 ≤ a) (hb : 0 ≤ b) :
    ∀ (vs : List Vec2) (init : Vec2),
      (vs.map (fun v => (⟨v.x * a, v.y * b⟩ : Vec2))).foldl
          (fun m w => (⟨max m.x w.x, max m.y w.y⟩ : Vec2))
          (⟨init.x * a, init.y * b⟩ : Vec2) =
        (⟨(vs.foldl (fun m w => (⟨max m.x w.x, max m.y w.y⟩ : Vec2)) init).x * a,
          (vs.foldl (fun m w => (⟨max m.x w.x, max m.y w.y⟩ : Vec2)) init).y * b⟩ : Vec2)
  | [], init => by simp
  | w :: ws, init => by
    simp only [List.map_cons, List.foldl_cons]
    rw [show (⟨max (init.x * a) (w.x * a), max (init.y * b) (w.y * b)⟩ : Vec2)
        = ⟨max init.x w.x * a, max init.y w.y * b⟩ by
      rw [max_mul_of_nonneg _ _ ha, max_mul_of_nonneg _ _ hb]]
    exact bboxFoldlMax_map_mul a b ha hb ws ⟨max init.x w.x, max init.y w.y⟩

/-- Scaling every vertex componentwise by nonnegative factors scales the
bounding-box width by the X factor. -/
lemma bboxWidth_map_mul (a b : ℝ) (ha : 0 ≤ a) (hb : 0 ≤ b) (vs : List Vec2) :
    bboxWidth (vs.map (fun v => (⟨v.x * a, v.y * b⟩ : Vec2))) = bboxWidth vs * a := by
  cases vs with
  | nil => simp [bboxWidth, bboxMax, bboxMin]
  | cons v rest =>
    rw [bboxWidth, bboxWidth, List.map_cons, bboxMax, bboxMin, bboxMax, bboxMin,
      bboxFoldlMin_map_mul a b ha hb rest v, bboxFoldlMax_map_mul a b ha hb rest v]
    ring

/-- Scaling every vertex componentwise by nonnegative factors scales the
bounding-box height by the Y factor. -/
lemma bboxHeight_map_mul (a b : ℝ) (ha : 0 ≤ a) (hb : 0 ≤ b) (vs : List Vec2) :
    bboxHeight (vs.map (fun v => (⟨v.x * a, v.y * b⟩ : Vec2))) = bboxHeight vs * b := by
  cases vs with
  | nil => simp [bboxHeight, bboxMax, bboxMin]
  | cons v rest =>
    rw [bboxHeight, bboxHeight, List.map_cons, bboxMax, bboxMin, bboxMax, bboxMin,
      bboxFoldlMin_map_mul a b ha hb rest v, bboxFoldlMax_map_mul a b ha hb rest v]
    ring

/-- The right-handle drag gesture: `beginPlaneResize`, the first
(capture-only) update tick at `p0`, then a real update tick at `p`. -/
def planeResizeAfterTicks (mesh : Mesh) (p0 p : Vec2) (shiftKey : Bool) : Mesh :=
  ((updatePlaneResize
      ((updatePlaneResize (beginPlaneResize PlaneHandleRole.planeRight mesh)
        mesh p0 shiftKey).1)
      mesh p shiftKey).2)

/-- A tick that sees `initialMouseLocal = (0,0)` only captures the local
reference point and leaves the mesh alone. -/
lemma updatePlaneResize_capture (state : PlaneResizeState) (mesh : Mesh)
    (p0 : Vec2) (shiftKey : Bool) (role : PlaneHandleRole) (cache : List Vec2)
    (hrole : state.activePlaneHandleRole = some role)
    (hcache : state.meshUnitPositionCache = some cache)
    (h0 : state.initialMouseLocal = ⟨0, 0⟩) :
    updatePlaneResize state mesh p0 shiftKey =
      ({ state with initialMouseLocal :=
          resizeMouseLocal state.initialPlaneCenter mesh p0 }, mesh) := by
  rw [updatePlaneResize, hrole, hcache]
  dsimp only
  rw [if_pos ⟨by rw [h0], by rw [h0]⟩]

/-- A right-handle tick after the reference point has been captured. -/
lemma updatePlaneResize_right_step (state : PlaneResizeState) (mesh : Mesh)
    (p : Vec2) (shiftKey : Bool) (cache : List Vec2)
    (hrole : state.activePlaneHandleRole = some PlaneHandleRole.planeRight)
    (hcache : state.meshUnitPositionCache = some cache)
    (hmm : ¬ (state.initialMouseLocal.x = 0 ∧ state.initialMouseLocal.y = 0)) :
    updatePlaneResize state mesh p shiftKey =
      (state,
       { mesh with verts := cache.map (fun u =>
          (⟨u.x * max (|(resizeMouseLocal state.initialPlaneCenter mesh p).x| * 2) 0.2,
            u.y * (if shiftKey then
                state.initialHeight *
                  (max (|(resizeMouseLocal state.initialPlaneCenter mesh p).x| * 2) 0.2
                    / state.initialWidth)
              else state.initialHeight)⟩ : Vec2)) }) := by
  rw [updatePlaneResize, hrole, hcache]
  dsimp only
  rw [if_neg hmm]

lemma planeResizeAfterTicks_verts (mesh : Mesh) (p0 p : Vec2) (shiftKey : Bool)
    (hw : (0.001 : ℝ) ≤ bboxWidth mesh.verts)
    (hh : (0.001 : ℝ) ≤ bboxHeight mesh.verts)
    (hcap : resizeMouseLocal mesh.position mesh p0 ≠ ⟨0, 0⟩) :
    (planeResizeAfterTicks mesh p0 p shiftKey).verts =
      (mesh.verts.map (fun v =>
          (⟨v.x / bboxWidth mesh.verts, v.y / bboxHeight mesh.verts⟩ : Vec2))).map
        (fun u =>
          (⟨u.x * max (|(resizeMouseLocal mesh.position mesh p).x| * 2) 0.2,
            u.y * (if shiftKey then
              bboxHeight mesh.verts *
                (max (|(resizeMouseLocal mesh.position mesh p).x| * 2) 0.2
                  / bboxWidth mesh.verts)
            else bboxHeight mesh.verts)⟩ : Vec2)) := by
  have hwne : ¬ bboxWidth mesh.verts < 0.001 := not_lt.mpr hw
  have hhne : ¬ bboxHeight mesh.verts < 0.001 := not_lt.mpr hh
  have hbegin : beginPlaneResize PlaneHandleRole.planeRight mesh =
      ⟨some PlaneHandleRole.planeRight, mesh.position, bboxWidth mesh.verts,
        bboxHeight mesh.verts, ⟨0, 0⟩,
        some (mesh.verts.map (fun v =>
          (⟨v.x / bboxWidth mesh.verts, v.y / bboxHeight mesh.verts⟩ : Vec2)))⟩ := by
    simp only [beginPlaneResize, if_neg hwne, if_neg hhne]
  have hcap' : ¬ ((resizeMouseLocal mesh.position mesh p0).x = 0 ∧
      (resizeMouseLocal mesh.position mesh p0).y = 0) := by
    intro hc
    exact hcap (Vec2.ext hc.1 hc.2)
  rw [planeResizeAfterTicks, hbegin,
    updatePlaneResize_capture _ mesh p0 shiftKey PlaneHandleRole.planeRight _ rfl rfl rfl]
  rw [updatePlaneResize_right_step _ mesh p shiftKey _ rfl rfl hcap']

/-- C7: two update ticks after `beginPlaneResize` with the plane-right
handle, (a) the plane's new bounding-box width is exactly
`max (2·|local-x pointer offset from the captured center|, 0.2)` — in
particular dragging a 2×2 plane's right handle to local x = 3 gives
width 6 —, (b) dragging further outward (beyond the 0.1 half-extent
clamp) strictly increases the width, and (c) with shift held the
height scales by the same ratio as the width. -/
theorem updatePlaneResize_right_spec (mesh : Mesh) (p0 p p' : Vec2) (shiftKey : Bool)
    (hw : (0.001 : ℝ) ≤ bboxWidth mesh.verts)
    (hh : (0.001 : ℝ) ≤ bboxHeight mesh.verts)
    (hcap : resizeMouseLocal mesh.position mesh p0 ≠ ⟨0, 0⟩) :
    bboxWidth (planeResizeAfterTicks mesh p0 p shiftKey).verts
        = max (|(resizeMouseLocal mesh.position mesh p).x| * 2) 0.2
    ∧ ((0.1 : ℝ) ≤ |(resizeMouseLocal mesh.position mesh p).x| →
        |(resizeMouseLocal mesh.position mesh p).x|
            < |(resizeMouseLocal mesh.position mesh p').x| →
        bboxWidth (planeResizeAfterTicks mesh p0 p shiftKey).verts
          < bboxWidth (planeResizeAfterTicks mesh p0 p' shiftKey).verts)
    ∧ bboxHeight (planeResizeAfterTicks mesh p0 p true).verts
          / bboxHeight mesh.verts
        = bboxWidth (planeResizeAfterTicks mesh p0 p true).verts
          / bboxWidth mesh.verts := by
  have hwpos : (0 : ℝ) < bboxWidth mesh.verts := lt_of_lt_of_le (by norm_num) hw
  have hhpos : (0 : ℝ) < bboxHeight mesh.verts := lt_of_lt_of_le (by norm_num) hh
  have hinvw : (0 : ℝ) ≤ (bboxWidth mesh.verts)⁻¹ := inv_nonneg.mpr (le_of_lt hwpos)
  have hinvh : (0 : ℝ) ≤ (bboxHeight mesh.verts)⁻¹ := inv_nonneg.mpr (le_of_lt hhpos)
  have hwidth : ∀ (q : Vec2) (sk : Bool),
      bboxWidth (planeResizeAfterTicks mesh p0 q sk).verts
        = max (|(resizeMouseLocal mesh.position mesh q).x| * 2) 0.2 := by
    intro q sk
    have hnw : (0 : ℝ) ≤ max (|(resizeMouseLocal mesh.position mesh q).x| * 2) 0.2 :=
      le_trans (by norm_num) (le_max_right _ _)
    have hnh : (0 : ℝ) ≤ (if sk then
        bboxHeight mesh.verts *
          (max (|(resizeMouseLocal mesh.position mesh q).x| * 2) 0.2
            / bboxWidth mesh.verts)
      else bboxHeight mesh.verts) := by
      cases sk with
      | true => rw [if_pos rfl]; positivity
      | false => rw [if_neg Bool.false_ne_true]; exact le_of_lt hhpos
    rw [planeResizeAfterTicks_verts mesh p0 q sk hw hh hcap,
      bboxWidth_map_mul _ _ hnw hnh]
    simp only [div_eq_mul_inv]
    rw [bboxWidth_map_mul _ _ hinvw hinvh, mul_inv_cancel₀ (ne_of_gt hwpos), one_mul]
  have hheight : bboxHeight (planeResizeAfterTicks mesh p0 p true).verts
      = bboxHeight mesh.verts *
          (max (|(resizeMouseLocal mesh.position mesh p).x| * 2) 0.2
            / bboxWidth mesh.verts) := by
    have hnw : (0 : ℝ) ≤ max (|(resizeMouseLocal mesh.position mesh p).x| * 2) 0.2 :=
      le_trans (by norm_num) (le_max_right _ _)
    have hnh : (0 : ℝ) ≤ bboxHeight mesh.verts *
        (max (|(resizeMouseLocal mesh.position mesh p).x| * 2) 0.2
          / bboxWidth mesh.verts) := by positivity
    rw [planeResizeAfterTicks_verts mesh p0 p true hw hh hcap]
    simp only [if_pos trivial]
    rw [bboxHeight_map_mul _ _ hnw hnh]
    simp only [div_eq_mul_inv]
    rw [bboxHeight_map_mul _ _ hinvw hinvh, mul_inv_cancel₀ (ne_of_gt hhpos), one_mul]
  refine ⟨hwidth p shiftKey, ?_, ?_⟩
  · intro hmin hlt
    rw [hwidth p shiftKey, hwidth p' shiftKey]
    rw [max_eq_left (by linarith), max_eq_left (by linarith)]
    linarith
  · rw [hheight, hwidth p true, mul_div_cancel_left₀ _ (ne_of_gt hhpos)]

/-- Witness for C7: the spec scenario — a 2×2 plane centered at the
origin, right handle captured at local x = 1 and dragged to local x = 3,
yielding width 6. -/
theorem updatePlaneResize_right_spec_witness :
    bboxWidth (planeResizeAfterTicks (examplePlane 0 0 0) ⟨1, 0⟩ ⟨3, 0⟩ false).verts = 6 := by
  have hbw : bboxWidth (examplePlane 0 0 0).verts = 2 := by
    simp only [examplePlane, bboxWidth, bboxMax, bboxMin, List.foldl]
    norm_num [min_def, max_def]
  have hbh : bboxHeight (examplePlane 0 0 0).verts = 2 := by
    simp only [examplePlane, bboxHeight, bboxMax, bboxMin, List.foldl]
    norm_num [min_def, max_def]
  have hlx : (resizeMouseLocal (examplePlane 0 0 0).position (examplePlane 0 0 0)
      ⟨3, 0⟩).x = 3 := by
    simp only [resizeMouseLocal, examplePlane]
    norm_num
  have h := (updatePlaneResize_right_spec (examplePlane 0 0 0) ⟨1, 0⟩ ⟨3, 0⟩ ⟨4, 0⟩ false
      (by rw [hbw]; norm_num) (by rw [hbh]; norm_num)
      (by
        simp only [resizeMouseLocal, examplePlane]
        intro hc
        rw [Vec2.mk.injEq] at hc
        norm_num at hc)).1
  rw [hlx] at h
  rw [h, abs_of_pos (by norm_num : (0:ℝ) < 3), max_eq_left (by norm_num)]
  norm_num

/-! ## Circle resize (`circleResize.ts`) and measurement re-tracking
(`trackMeasurement.ts`) -/

/-- `activeCircleHandleRole` values. -/
inductive CircleHandleRole
  | ellipseRx
  | ellipseRy
deriving DecidableEq

/-- The module-level state captured by `beginCircleResize` (outline cache
omitted as for the plane). -/
structure CircleResizeState where
  activeCircleHandleRole : Option CircleHandleRole
  initialEllipseCenter : Vec2
  initialRadiusX : ℝ
  initialRadiusY : ℝ
  initialMouseLocal : Vec2
  meshUnitPositionCache : Option (List Vec2)

/-- `beginCircleResize`: capture center, current radii (half the
bounding-box extents, clamped to 0.1 when below 0.001) and the
unit-normalized vertex cache. -/
def beginCircleResize (role : CircleHandleRole) (mesh : Mesh) : CircleResizeState :=
  let initialRadiusX :=
    if bboxWidth mesh.verts / 2 < 0.001 then 0.1 else bboxWidth mesh.verts / 2
  let initialRadiusY :=
    if bboxHeight mesh.verts / 2 < 0.001 then 0.1 else bboxHeight mesh.verts / 2
  { activeCircleHandleRole := some role
    initialEllipseCenter := mesh.position
    initialRadiusX := initialRadiusX
    initialRadiusY := initialRadiusY
    initialMouseLocal := ⟨0, 0⟩
    meshUnitPositionCache :=
      some (mesh.verts.map (fun v => ⟨v.x / initialRadiusX, v.y / initialRadiusY⟩)) }

/-- `updateCircleResize`: same shape as `updatePlaneResize` with radii in
place of extents and a 0.1 minimum; unlike `updatePlaneResize` the source
ends the tick with only `updateSelectionHelpers()` and
`refreshDimensionsForObject(mesh)` — it never calls
`updateMeasurementsForShape`. -/
def updateCircleResize (state : CircleResizeState) (mesh : Mesh)
    (mouseWorldPosition : Vec2) (shiftKey : Bool) : CircleResizeState × Mesh :=
  match state.activeCircleHandleRole, state.meshUnitPositionCache with
  | some role, some cache =>
    let mouseLocal := resizeMouseLocal state.initialEllipseCenter mesh mouseWorldPosition
    if state.initialMouseLocal.x = 0 ∧ state.initialMouseLocal.y = 0 then
      ({ state with initialMouseLocal := mouseLocal }, mesh)
    else
      let rxy : ℝ × ℝ :=
        match role with
        | CircleHandleRole.ellipseRx =>
          let localOffsetX := |mouseLocal.x|
          let newRadiusX := max localOffsetX 0.1
          (newRadiusX,
           if shiftKey then state.initialRadiusY * (newRadiusX / state.initialRadiusX)
           else state.initialRadiusY)
        | CircleHandleRole.ellipseRy =>
          let localOffsetY := |mouseLocal.y|
          let newRadiusY := max localOffsetY 0.1
          ((if shiftKey then state.initialRadiusX * (newRadiusY / state.initialRadiusY)
            else state.initialRadiusX),
           newRadiusY)
      (state,
       { mesh with verts := cache.map (fun u => ⟨u.x * rxy.1, u.y * rxy.2⟩) })
  | _, _ => (state, mesh)

/-- One `updateCircleResize` tick as seen by a measurement endpoint
attached to the resized shape: the geometry is mutated, but since
`updateCircleResize` never calls `updateMeasurementsForShape` (its only
side calls are `updateSelectionHelpers` and `refreshDimensionsForObject`,
neither of which touches measurement points, and the drag dispatcher in
`dragSelection.ts` returns right after it), the endpoint's stored world
position passes through unchanged. -/
def updateCircleResizeTick (state : CircleResizeState) (mesh : Mesh)
    (measEndpointWorld : Vec2) (mouseWorldPosition : Vec2) (shiftKey : Bool) :
    (CircleResizeState × Mesh) × Vec2 :=
  (updateCircleResize state mesh mouseWorldPosition shiftKey, measEndpointWorld)

/-- What `updateMeasurementsForShape` stores for an attached endpoint:
`normalizedToWorld(localNormalized, shape)`. -/
def updateMeasurementsForShapeEndpoint (m : Mesh) (localNormalized : Vec2) : Vec2 :=
  normalizedToWorld localNormalized m

/-- The C1 invariant for one attached endpoint: the stored world position
equals the shape's bounding-box point `bboxMin + normalized·(bboxMax -
bboxMin)` mapped through the current local-to-world transform, i.e.
`normalizedToWorld`. -/
def endpointInvariant (m : Mesh) (worldPoint normalized : Vec2) : Prop :=
  worldPoint = normalizedToWorld normalized m

/-- Capture tick of `updateCircleResize`. -/
lemma updateCircleResize_capture (state : CircleResizeState) (mesh : Mesh)
    (p0 : Vec2) (shiftKey : Bool) (role : CircleHandleRole) (cache : List Vec2)
    (hrole : state.activeCircleHandleRole = some role)
    (hcache : state.meshUnitPositionCache = some cache)
    (h0 : state.initialMouseLocal = ⟨0, 0⟩) :
    updateCircleResize state mesh p0 shiftKey =
      ({ state with initialMouseLocal :=
          resizeMouseLocal state.initialEllipseCenter mesh p0 }, mesh) := by
  rw [updateCircleResize, hrole, hcache]
  dsimp only
  rw [if_pos ⟨by rw [h0], by rw [h0]⟩]

/-- A horizontal-handle tick of `updateCircleResize` after capture. -/
lemma updateCircleResize_rx_step (state : CircleResizeState) (mesh : Mesh)
    (p : Vec2) (shiftKey : Bool) (cache : List Vec2)
    (hrole : state.activeCircleHandleRole = some CircleHandleRole.ellipseRx)
    (hcache : state.meshUnitPositionCache = some cache)
    (hmm : ¬ (state.initialMouseLocal.x = 0 ∧ state.initialMouseLocal.y = 0)) :
    updateCircleResize state mesh p shiftKey =
      (state,
       { mesh with verts := cache.map (fun u =>
          (⟨u.x * max (|(resizeMouseLocal state.initialEllipseCenter mesh p).x|) 0.1,
            u.y * (if shiftKey then
                state.initialRadiusY *
                  (max (|(resizeMouseLocal state.initialEllipseCenter mesh p).x|) 0.1
                    / state.initialRadiusX)
              else state.initialRadiusY)⟩ : Vec2)) }) := by
  rw [updateCircleResize, hrole, hcache]
  dsimp only
  rw [if_neg hmm]

/-- A unit circle mesh at the origin: geometry given by its four cardinal
points, identity transform. -/
def exCircle : Mesh := ⟨0, ⟨0, 0⟩, 1, 0, ⟨1, 1⟩, [⟨1, 0⟩, ⟨0, 1⟩, ⟨-1, 0⟩, ⟨0, -1⟩]⟩

/-- The normalized attachment coordinates `attachMeasurementToShapes`
records for a measurement endpoint at the circle's right cardinal point. -/
def exAttachedNormalized : Vec2 :=
  getNormalizedCoordinates (worldToLocal ⟨1, 0⟩ exCircle) exCircle

/-- The full drag: `beginCircleResize` on the rx handle, the capture tick
at the handle (world x = 1), then a resize tick dragging to world x = 2,
threading the attached endpoint's stored world position through. -/
def exCircleResizeRun : (CircleResizeState × Mesh) × Vec2 :=
  updateCircleResizeTick
    ((updateCircleResize (beginCircleResize CircleHandleRole.ellipseRx exCircle)
        exCircle ⟨1, 0⟩ false).1)
    exCircle ⟨1, 0⟩ ⟨2, 0⟩ false

lemma exCircle_bboxMin : bboxMin exCircle.verts = ⟨-1, -1⟩ := by
  simp only [exCircle, bboxMin, List.foldl]
  norm_num [min_def]

lemma exCircle_bboxMax : bboxMax exCircle.verts = ⟨1, 1⟩ := by
  simp only [exCircle, bboxMax, List.foldl]
  norm_num [max_def]

lemma exAttachedNormalized_eq : exAttachedNormalized = ⟨1, 1/2⟩ := by
  rw [exAttachedNormalized, getNormalizedCoordinates, bboxWidth, bboxHeight,
    exCircle_bboxMin, exCircle_bboxMax]
  rw [show worldToLocal ⟨1, 0⟩ exCircle = ⟨1, 0⟩ by
    rw [worldToLocal, exCircle]
    simp [rot, Vec2.sub]]
  norm_num

lemma exCircleResizeRun_mesh :
    exCircleResizeRun.1.2 =
      ⟨0, ⟨0, 0⟩, 1, 0, ⟨1, 1⟩, [⟨2, 0⟩, ⟨0, 1⟩, ⟨-2, 0⟩, ⟨0, -1⟩]⟩ := by
  have hbegin : beginCircleResize CircleHandleRole.ellipseRx exCircle =
      ⟨some CircleHandleRole.ellipseRx, ⟨0, 0⟩, 1, 1, ⟨0, 0⟩,
        some [⟨1, 0⟩, ⟨0, 1⟩, ⟨-1, 0⟩, ⟨0, -1⟩]⟩ := by
    rw [beginCircleResize, bboxWidth, bboxHeight, exCircle_bboxMin, exCircle_bboxMax]
    norm_num [exCircle]
  have hlocal1 : resizeMouseLocal (⟨0, 0⟩ : Vec2) exCircle ⟨1, 0⟩ = ⟨1, 0⟩ := by
    rw [resizeMouseLocal, exCircle]
    norm_num
  have hlocal2 : resizeMouseLocal (⟨0, 0⟩ : Vec2) exCircle ⟨2, 0⟩ = ⟨2, 0⟩ := by
    rw [resizeMouseLocal, exCircle]
    norm_num
  rw [exCircleResizeRun, updateCircleResizeTick, hbegin,
    updateCircleResize_capture _ exCircle ⟨1, 0⟩ false CircleHandleRole.ellipseRx _
      rfl rfl rfl]
  dsimp only
  rw [updateCircleResize_rx_step _ exCircle ⟨2, 0⟩ false _ rfl rfl
      (by
        dsimp only
        rw [hlocal1]
        intro hc
        norm_num at hc)]
  dsimp only
  rw [hlocal2]
  rw [exCircle]
  dsimp only
  norm_num [abs_of_pos, max_eq_left]

/-- C1: the attachment invariant holds for a measurement endpoint at the
unit circle's right cardinal point, but after an `updateCircleResize`
tick that drags the rx handle from x = 1 to x = 2 the stored endpoint
(unchanged, since the tick never calls `updateMeasurementsForShape`) no
longer equals `normalizedToWorld` of its recorded normalized coordinates
— the invariant the spec states for every resize tick is broken; calling
`updateMeasurementsForShape`'s endpoint computation would restore it. -/
theorem updateCircleResize_breaks_attachment_invariant :
    endpointInvariant exCircle ⟨1, 0⟩ exAttachedNormalized
    ∧ exCircleResizeRun.2 = ⟨1, 0⟩
    ∧ ¬ endpointInvariant exCircleResizeRun.1.2 exCircleResizeRun.2 exAttachedNormalized
    ∧ endpointInvariant exCircleResizeRun.1.2
        (updateMeasurementsForShapeEndpoint exCircleResizeRun.1.2 exAttachedNormalized)
        exAttachedNormalized := by
  have hafter : bboxMin (⟨0, ⟨0, 0⟩, 1, 0, ⟨1, 1⟩,
      [⟨2, 0⟩, ⟨0, 1⟩, ⟨-2, 0⟩, ⟨0, -1⟩]⟩ : Mesh).verts = ⟨-2, -1⟩ := by
    simp only [bboxMin, List.foldl]
    norm_num [min_def]
  have hafterMax : bboxMax (⟨0, ⟨0, 0⟩, 1, 0, ⟨1, 1⟩,
      [⟨2, 0⟩, ⟨0, 1⟩, ⟨-2, 0⟩, ⟨0, -1⟩]⟩ : Mesh).verts = ⟨2, 1⟩ := by
    simp only [bboxMax, List.foldl]
    norm_num [max_def]
  refine ⟨?_, rfl, ?_, rfl⟩
  · rw [endpointInvariant, exAttachedNormalized_eq, normalizedToWorld, bboxWidth,
      bboxHeight, exCircle_bboxMin, exCircle_bboxMax, localToWorld, exCircle]
    simp only [rot, Vec2.add]
    norm_num
  · rw [endpointInvariant, exAttachedNormalized_eq, exCircleResizeRun_mesh]
    rw [normalizedToWorld, bboxWidth, bboxHeight, hafter, hafterMax, localToWorld]
    simp only [rot, Vec2.add]
    rw [show exCircleResizeRun.2 = (⟨1, 0⟩ : Vec2) from rfl]
    intro hc
    rw [Vec2.mk.injEq] at hc
    norm_num at hc

/-! ## Measurement manager (`measurementManager.ts`), tracking
(`trackMeasurement.ts`) and shape deletion (`deleteShape.ts`) -/

/-- A `Measurement` record's geometric core (`measurementManager.ts`);
the style fields (colors, arrow/label settings) are owned by rendering
and carry no geometry, so they are omitted. -/
structure Measurement where
  id : ℕ
  startPoint : Vec2
  endPoint : Vec2
  distance : ℝ
  dimensionOffset : ℝ
  labelOffset : ℝ

/-- `addMeasurement`: distance is computed from the endpoints, the label
sits at 0.5, and the record is appended to the collection.  The source
draws the id from `Date.now()`; the caller passes a fresh id here. -/
def addMeasurement (freshId : ℕ) (start endp : Vec2) (dimensionOffset : ℝ)
    (measurements : List Measurement) : Measurement × List Measurement :=
  let distance := distV start endp
  let m : Measurement := ⟨freshId, start, endp, distance, dimensionOffset, 0.5⟩
  (m, measurements ++ [m])

/-- `removeMeasurement`: drop the record with the given id. -/
def removeMeasurement (id : ℕ) (measurements : List Measurement) :
    List Measurement :=
  measurements.filter (fun m => m.id != id)

/-- `PointAttachment` from `trackMeasurement.ts`. -/
structure PointAttachment where
  shapeId : ℕ
  localPoint : Vec2
  localNormalized : Vec2

/-- `MeasurementTracking` from `trackMeasurement.ts`. -/
structure MeasurementTracking where
  measurementId : ℕ
  startAttachment : Option PointAttachment
  endAttachment : Option PointAttachment

/-- The two module-level maps of `trackMeasurement.ts`, as association
lists (`Map`/`Set` iteration order is insertion order). -/
structure TrackState where
  measurementTrackingMap : List (ℕ × MeasurementTracking)
  shapeToMeasurementsMap : List (ℕ × List ℕ)

/-- `shapeToMeasurementsMap.get(shapeId)?.delete(measurementId)`. -/
def removeFromShapeSet (shapeId measurementId : ℕ)
    (m : List (ℕ × List ℕ)) : List (ℕ × List ℕ) :=
  m.map (fun kv =>
    if kv.1 = shapeId then (kv.1, kv.2.filter (fun i => i != measurementId)) else kv)

/-- `detachMeasurement`: remove the measurement from both shape lookups
and drop its tracking entry. -/
def detachMeasurement (measurementId : ℕ) (ts : TrackState) : TrackState :=
  match ts.measurementTrackingMap.lookup measurementId with
  | none => ts
  | some tracking =>
    let afterStart :=
      match tracking.startAttachment with
      | some att => removeFromShapeSet att.shapeId measurementId ts.shapeToMeasurementsMap
      | none => ts.shapeToMeasurementsMap
    let afterEnd :=
      match tracking.endAttachment with
      | some att => removeFromShapeSet att.shapeId measurementId afterStart
      | none => afterStart
    { measurementTrackingMap :=
        ts.measurementTrackingMap.filter (fun kv => kv.1 != measurementId)
      shapeToMeasurementsMap := afterEnd }

/-- The measurement collection together with its tracking maps. -/
structure MeasState where
  measurements : List Measurement
  tracking : TrackState

/-- The measurement ids registered under a shape uuid. -/
def idsForShape (shapeUuid : ℕ) (st : MeasState) : List ℕ :=
  (st.tracking.shapeToMeasurementsMap.lookup shapeUuid).getD []

/-- `removeMeasurementsForShape`: for every measurement id registered
under the shape, clean its tracking, remove it from the data model and
(not modelled) its visuals. -/
def removeMeasurementsForShape (shapeUuid : ℕ) (st : MeasState) : MeasState :=
  match st.tracking.shapeToMeasurementsMap.lookup shapeUuid with
  | none => st
  | some measurementIds =>
    measurementIds.foldl
      (fun acc measurementId =>
        { measurements := removeMeasurement measurementId acc.measurements
          tracking := detachMeasurement measurementId acc.tracking })
      st

/-- The scene-level state `deleteSelectedShape` manipulates: the current
selection, the shape uuids in the scene and the measurement subsystem. -/
structure SceneState where
  selectedObject : Option ℕ
  sceneShapes : List ℕ
  meas : MeasState

/-- `deleteSelectedShape` from `deleteShape.ts`: no selection is a no-op
returning `false`; otherwise the shape's measurements are removed via
`removeMeasurementsForShape`, the shape leaves the scene (geometry
disposal is renderer-side), the selection is cleared and `true` is
returned. -/
def deleteSelectedShape (st : SceneState) : Bool × SceneState :=
  match st.selectedObject with
  | none => (false, st)
  | some uuid =>
      (true,
       { selectedObject := none
         sceneShapes := st.sceneShapes.filter (fun u => u != uuid)
         meas := removeMeasurementsForShape uuid st.meas })

lemma foldl_removeMeasurement_measurements (ids : List ℕ) (st : MeasState) :
    (ids.foldl
      (fun acc measurementId =>
        ({ measurements := removeMeasurement measurementId acc.measurements
           tracking := detachMeasurement measurementId acc.tracking } : MeasState))
      st).measurements
      = st.measurements.filter (fun m => !ids.contains m.id) := by
  induction ids generalizing st with
  | nil => simp
  | cons i rest ih =>
    rw [List.foldl_cons, ih]
    rw [removeMeasurement, List.filter_filter]
    apply List.filter_congr
    intro m _
    simp only [List.contains_cons, Bool.not_or]
    by_cases h : m.id = i
    · subst h; simp
    · simp [h, Bool.and_comm, bne]

/-- Measurement-collection effect of `removeMeasurementsForShape`:
exactly the measurements registered under the shape disappear. -/
lemma removeMeasurementsForShape_measurements (shapeUuid : ℕ) (st : MeasState) :
    (removeMeasurementsForShape shapeUuid st).measurements =
      st.measurements.filter (fun m => !(idsForShape shapeUuid st).contains m.id) := by
  rw [removeMeasurementsForShape, idsForShape]
  cases hq : st.tracking.shapeToMeasurementsMap.lookup shapeUuid with
  | none => simp
  | some ids =>
    dsimp only [Option.getD]
    exact foldl_removeMeasurement_measurements ids st

/-- C2 (amended): deleting the selected shape removes from the
measurement collection exactly the measurements registered as attached to
it — they are not kept as free-floating dimensions. -/
theorem deleteSelectedShape_spec (st : SceneState) (uuid : ℕ)
    (hsel : st.selectedObject = some uuid) :
    (deleteSelectedShape st).1 = true ∧
    (deleteSelectedShape st).2.meas.measurements =
      st.meas.measurements.filter
        (fun m => !(idsForShape uuid st.meas).contains m.id) := by
  rw [deleteSelectedShape, hsel]
  exact ⟨rfl, removeMeasurementsForShape_measurements uuid st.meas⟩

/-- A one-measurement, one-shape scene: measurement 1 is attached to
shape 7, which is selected. -/
def exScene : SceneState :=
  ⟨some 7, [7],
   ⟨[⟨1, ⟨0, 0⟩, ⟨1, 0⟩, 1, 0, 0.5⟩],
    ⟨[(1, ⟨1, some ⟨7, ⟨1, 0⟩, ⟨1, 1/2⟩⟩, none⟩)], [(7, [1])]⟩⟩⟩

/-- Counterexample to C2 as stated: in `exScene` the measurement with an
endpoint attached to the deleted shape is present before the deletion and
the collection is empty afterwards — it is not kept as a free-floating
dimension. -/
theorem deleteSelectedShape_not_kept :
    (⟨1, ⟨0, 0⟩, ⟨1, 0⟩, 1, 0, 0.5⟩ : Measurement) ∈ exScene.meas.measurements
    ∧ (idsForShape 7 exScene.meas).contains 1 = true
    ∧ (deleteSelectedShape exScene).2.meas.measurements = [] := by
  refine ⟨List.mem_singleton.mpr rfl, rfl, ?_⟩
  rw [(deleteSelectedShape_spec exScene 7 rfl).2]
  rfl

/-- Witness for the amended C2 at the concrete scene. -/
theorem deleteSelectedShape_spec_witness :
    (deleteSelectedShape exScene).1 = true ∧
    (deleteSelectedShape exScene).2.meas.measurements =
      exScene.meas.measurements.filter
        (fun m => !(idsForShape 7 exScene.meas).contains m.id) :=
  deleteSelectedShape_spec exScene 7 rfl

/-! ## Measure tool (`measureTool.ts`, `measurementCalculator.ts`,
`scene.ts`) -/

/-- `calculateMidpoint`. -/
def calculateMidpoint (point1 point2 : Vec2) : Vec2 :=
  Vec2.smul 0.5 (point1.add point2)

/-- `calculatePerpendicularDirection`: the 2D left-normal `(-dy, dx)` of
the normalized segment direction. -/
def calculatePerpendicularDirection (startPoint endPoint : Vec2) : Vec2 :=
  let lineDirection := normalizeV (endPoint.sub startPoint)
  ⟨-lineDirection.y, lineDirection.x⟩

/-- `calculateDimensionOffset`: the mouse offset from the segment midpoint
projected onto the perpendicular direction. -/
def calculateDimensionOffset (startPoint endPoint mousePosition : Vec2) : ℝ :=
  (mousePosition.sub (calculateMidpoint startPoint endPoint)).dot
    (calculatePerpendicularDirection startPoint endPoint)

/-- `clampDimensionOffset`. -/
def clampDimensionOffset (offset maxOffset : ℝ) : ℝ :=
  max (-maxOffset) (min maxOffset offset)

/-- `MIN_DIMENSION_LENGTH_M` from `measurementCalculator.ts`. -/
def MIN_DIMENSION_LENGTH_M : ℝ := 0.3048

/-- `SAME_POINT_TOLERANCE` from `measureTool.ts`. -/
def SAME_POINT_TOLERANCE : ℝ := 0.15

/-- `getDrawingBounds` from `scene.ts`: the invisible drawing plane is a
40×40 `PlaneGeometry`. -/
def getDrawingBounds : ℝ × ℝ := (40, 40)

/-- `clampToCanvasBounds`: clamp a point componentwise into the drawing
bounds inset by a 0.5 margin. -/
def clampToCanvasBounds (p : Vec2) : Vec2 :=
  let margin : ℝ := 0.5
  let halfW := getDrawingBounds.1 / 2
  let halfH := getDrawingBounds.2 / 2
  let minX := -halfW + margin
  let maxX := halfW - margin
  let minY := -halfH + margin
  let maxY := halfH - margin
  ⟨max minX (min maxX p.x), max minY (min maxY p.y)⟩

/-- The measure tool's environment: snap flags and feature lists, the
free-measurement flag, the settings' default dimension offset, a fresh
measurement id (`Date.now()` in the source) and the scene lookup behind
`findShapeUuidFromSnap`. -/
structure MeasureCtx where
  snap : SnapCtx
  allowFreeMeasurement : Bool
  defaultDimensionOffset : ℝ
  freshId : ℕ
  resolveShapeUuid : ℕ → Option ℕ

/-- The measure tool's module-level state, plus the measurement collection
it appends to (measure mode itself is assumed active: with it off both
handlers return without touching this state). -/
structure MeasureToolState where
  firstPoint : Option Vec2
  secondPoint : Option Vec2
  currentSnapPoint : Option Vec2
  secondClickPosition : Option Vec2
  previewDimensionOffset : ℝ
  firstPointShapeUuid : Option ℕ
  secondPointShapeUuid : Option ℕ
  measurements : List Measurement

/-- The click resolution of `handleMeasureClick` for clicks 1 and 2: the
best snap's position, else the free pointer position when free
measurement is allowed, else nothing (the click is ignored). -/
def resolveClick (ctx : MeasureCtx) (mouseWorldPos : Vec2) : Option Vec2 :=
  match (getBestSnap ctx.snap mouseWorldPos).1 with
  | some sp => some sp.position
  | none => if ctx.allowFreeMeasurement then some mouseWorldPos else none

/-- `handleMeasureClick`: the three-click state machine.  Indicator and
preview updates are visual-only and omitted;
`attachMeasurementToShapes` / `renderMeasurement` act on the tracking
maps and the renderer, not on this state. -/
def handleMeasureClick (ctx : MeasureCtx) (st0 : MeasureToolState)
    (mouseWorldPos : Vec2) : MeasureToolState :=
  let snap := (getBestSnap ctx.snap mouseWorldPos).1
  -- CLICK 1 & 2: need a valid snap point (respecting the snap settings);
  -- `none` is the early return when nothing resolves
  let resolvedState : Option MeasureToolState :=
    if st0.firstPoint.isNone || st0.secondPoint.isNone then
      match snap with
      | some sp => some { st0 with currentSnapPoint := some sp.position }
      | none =>
        if ctx.allowFreeMeasurement then
          some { st0 with currentSnapPoint := some mouseWorldPos }
        else none
    else some st0
  match resolvedState with
  | none => st0
  | some st =>
    match st.firstPoint with
    | none =>
      -- CLICK 1: set first point
      match st.currentSnapPoint with
      | none => st
      | some cur =>
        { st with
          firstPoint := some (clampToCanvasBounds cur)
          secondClickPosition := none
          firstPointShapeUuid :=
            match snap with
            | some sp => ctx.resolveShapeUuid sp.shapeId
            | none => none }
    | some fp =>
      match st.secondPoint with
      | none =>
        -- CLICK 2: set second point, rejecting clicks below the minimum
        -- dimension length
        match st.currentSnapPoint with
        | none => st
        | some cur =>
          if distV fp cur < MIN_DIMENSION_LENGTH_M then st
          else
            { st with
              secondPoint := some (clampToCanvasBounds cur)
              secondClickPosition := some cur
              previewDimensionOffset := ctx.defaultDimensionOffset
              secondPointShapeUuid :=
                match snap with
                | some sp => ctx.resolveShapeUuid sp.shapeId
                | none => none }
      | some sp2 =>
        -- CLICK 3: finalize the dimension line position
        match st.secondClickPosition with
        | none => st
        | some scp =>
          let finalOffset :=
            if distV mouseWorldPos scp < SAME_POINT_TOLERANCE then 0
            else clampDimensionOffset st.previewDimensionOffset 20
          { firstPoint := none
            secondPoint := none
            currentSnapPoint := none
            secondClickPosition := none
            previewDimensionOffset := ctx.defaultDimensionOffset
            firstPointShapeUuid := none
            secondPointShapeUuid := none
            measurements :=
              (addMeasurement ctx.freshId fp sp2 finalOffset st.measurements).2 }

/-- `handleMeasureMouseMove`: hover resolution per state; in state 3 the
preview dimension offset follows the pointer (indicator/preview visuals
omitted). -/
def handleMeasureMouseMove (ctx : MeasureCtx) (st : MeasureToolState)
    (mouseWorldPos : Vec2) : MeasureToolState :=
  match st.firstPoint with
  | none =>
    -- STATE 1: waiting for the first point
    (match (getBestSnap ctx.snap mouseWorldPos).1 with
     | some sp => { st with currentSnapPoint := some sp.position }
     | none =>
       if ctx.allowFreeMeasurement then
         { st with currentSnapPoint := some mouseWorldPos }
       else { st with currentSnapPoint := none })
  | some fp =>
    match st.secondPoint with
    | none =>
      -- STATE 2: waiting for the second point
      (match (getBestSnap ctx.snap mouseWorldPos).1 with
       | some sp => { st with currentSnapPoint := some sp.position }
       | none =>
         if ctx.allowFreeMeasurement then
           { st with currentSnapPoint := some mouseWorldPos }
         else { st with currentSnapPoint := none })
    | some sp2 =>
      -- STATE 3: positioning the dimension line
      { st with
        currentSnapPoint := some mouseWorldPos
        previewDimensionOffset :=
          clampDimensionOffset (calculateDimensionOffset fp sp2 mouseWorldPos) 20 }

/-- Click in the empty state: the resolved position is clamped and stored
as the first point. -/
lemma handleMeasureClick_empty (ctx : MeasureCtx) (sp cur scp : Option Vec2)
    (pv : ℝ) (u1 u2 : Option ℕ) (ms : List Measurement) (mouse r : Vec2)
    (hr : resolveClick ctx mouse = some r) :
    handleMeasureClick ctx ⟨none, sp, cur, scp, pv, u1, u2, ms⟩ mouse =
      ⟨some (clampToCanvasBounds r), sp, some r, none, pv,
       (match (getBestSnap ctx.snap mouse).1 with
        | some spt => ctx.resolveShapeUuid spt.shapeId
        | none => none), u2, ms⟩ := by
  rw [handleMeasureClick]
  rw [resolveClick] at hr
  cases hsnap : (getBestSnap ctx.snap mouse).1 with
  | some spt =>
    rw [hsnap] at hr
    rw [Option.some.injEq] at hr
    subst hr
    simp
  | none =>
    rw [hsnap] at hr
    cases hfree : ctx.allowFreeMeasurement with
    | false => rw [hfree, if_neg Bool.false_ne_true] at hr; cases hr
    | true =>
      rw [hfree, if_pos rfl, Option.some.injEq] at hr
      subst hr
      simp [hfree]

/-- Click in the have-first state: below the minimum length the machine
state is unchanged (only the resolved `currentSnapPoint` is refreshed),
otherwise the clamped resolved position becomes the second point. -/
lemma handleMeasureClick_haveFirst (ctx : MeasureCtx) (cur scp : Option Vec2)
    (pv : ℝ) (u1 u2 : Option ℕ) (ms : List Measurement) (f mouse r : Vec2)
    (hr : resolveClick ctx mouse = some r) :
    handleMeasureClick ctx ⟨some f, none, cur, scp, pv, u1, u2, ms⟩ mouse =
      if distV f r < MIN_DIMENSION_LENGTH_M then
        ⟨some f, none, some r, scp, pv, u1, u2, ms⟩
      else
        ⟨some f, some (clampToCanvasBounds r), some r, some r,
         ctx.defaultDimensionOffset, u1,
         (match (getBestSnap ctx.snap mouse).1 with
          | some spt => ctx.resolveShapeUuid spt.shapeId
          | none => none), ms⟩ := by
  rw [handleMeasureClick]
  rw [resolveClick] at hr
  cases hsnap : (getBestSnap ctx.snap mouse).1 with
  | some spt =>
    rw [hsnap] at hr
    rw [Option.some.injEq] at hr
    by_cases hd : distV f r < MIN_DIMENSION_LENGTH_M
    · rw [if_pos hd]; subst hr; simp [hd]
    · rw [if_neg hd]; subst hr; simp [hd]
  | none =>
    rw [hsnap] at hr
    cases hfree : ctx.allowFreeMeasurement with
    | false => rw [hfree, if_neg Bool.false_ne_true] at hr; cases hr
    | true =>
      rw [hfree, if_pos rfl, Option.some.injEq] at hr
      by_cases hd : distV f r < MIN_DIMENSION_LENGTH_M
      · rw [if_pos hd]; subst hr; simp [hfree, hd]
      · rw [if_neg hd]; subst hr; simp [hfree, hd]

/-- Click in the have-both state: the measurement is created with zero
offset when the click is within tolerance of the second click's position,
and the machine resets. -/
lemma handleMeasureClick_haveBoth (ctx : MeasureCtx) (cur : Option Vec2)
    (pv : ℝ) (u1 u2 : Option ℕ) (ms : List Measurement) (f s scp mouse : Vec2) :
    handleMeasureClick ctx ⟨some f, some s, cur, some scp, pv, u1, u2, ms⟩ mouse =
      ⟨none, none, none, none, ctx.defaultDimensionOffset, none, none,
       ms ++ [⟨ctx.freshId, f, s, distV f s,
         if distV mouse scp < SAME_POINT_TOLERANCE then 0
         else clampDimensionOffset pv 20, 0.5⟩]⟩ := by
  rw [handleMeasureClick]
  simp [addMeasurement]

/-- Mouse move in state 3: only `currentSnapPoint` and the preview offset
change. -/
lemma handleMeasureMouseMove_state3 (ctx : MeasureCtx) (cur scp : Option Vec2)
    (pv : ℝ) (u1 u2 : Option ℕ) (ms : List Measurement) (f s mouse : Vec2) :
    handleMeasureMouseMove ctx ⟨some f, some s, cur, scp, pv, u1, u2, ms⟩ mouse =
      ⟨some f, some s, some mouse, scp,
       clampDimensionOffset (calculateDimensionOffset f s mouse) 20, u1, u2, ms⟩ := by
  rw [handleMeasureMouseMove]

/-- The hover resolution of `handleMeasureMouseMove` in states 1 and 2:
best snap position, else the free pointer position when allowed. -/
def resolveHover (ctx : MeasureCtx) (mouseWorldPos : Vec2) : Option Vec2 :=
  match (getBestSnap ctx.snap mouseWorldPos).1 with
  | some sp => some sp.position
  | none =>
    if ctx.allowFreeMeasurement then some mouseWorldPos else none

/-- Mouse moves in states 1 and 2 only refresh `currentSnapPoint`. -/
lemma handleMeasureMouseMove_early (ctx : MeasureCtx) (fp : Option Vec2)
    (cur scp : Option Vec2) (pv : ℝ) (u1 u2 : Option ℕ) (ms : List Measurement)
    (mouse : Vec2) :
    handleMeasureMouseMove ctx ⟨fp, none, cur, scp, pv, u1, u2, ms⟩ mouse =
      ⟨fp, none, resolveHover ctx mouse, scp, pv, u1, u2, ms⟩ := by
  rw [handleMeasureMouseMove, resolveHover]
  cases fp with
  | none =>
    cases hsnap : (getBestSnap ctx.snap mouse).1 with
    | some spt => rfl
    | none =>
      cases hfree : ctx.allowFreeMeasurement with
      | true => rw [if_pos rfl, if_pos rfl]
      | false => rw [if_neg Bool.false_ne_true, if_neg Bool.false_ne_true]
  | some f =>
    cases hsnap : (getBestSnap ctx.snap mouse).1 with
    | some spt => rfl
    | none =>
      cases hfree : ctx.allowFreeMeasurement with
      | true => rw [if_pos rfl, if_pos rfl]
      | false => rw [if_neg Bool.false_ne_true, if_neg Bool.false_ne_true]

/-- C8: in the have-first state, a click whose resolved position is
strictly closer than `MIN_DIMENSION_LENGTH_M` (0.3048) to the stored
first point is a silent no-op — the handler is a total function (nothing
throws), the first point, machine state and measurement collection are
unchanged (only the hover `currentSnapPoint` is refreshed) — and a later
click at sufficient distance still advances the machine. -/
theorem handleMeasureClick_min_length_noop (ctx : MeasureCtx) (st : MeasureToolState)
    (f mouse mouse' r r' : Vec2)
    (hf : st.firstPoint = some f) (hs : st.secondPoint = none)
    (hr : resolveClick ctx mouse = some r)
    (hclose : distV f r < MIN_DIMENSION_LENGTH_M)
    (hr' : resolveClick ctx mouse' = some r')
    (hfar : MIN_DIMENSION_LENGTH_M ≤ distV f r') :
    (handleMeasureClick ctx st mouse).firstPoint = some f
    ∧ (handleMeasureClick ctx st mouse).secondPoint = none
    ∧ (handleMeasureClick ctx st mouse).secondClickPosition = st.secondClickPosition
    ∧ (handleMeasureClick ctx st mouse).measurements = st.measurements
    ∧ (handleMeasureClick ctx (handleMeasureClick ctx st mouse) mouse').secondPoint
        = some (clampToCanvasBounds r') := by
  obtain ⟨fp, sp, cur, scp, pv, u1, u2, ms⟩ := st
  obtain rfl : fp = some f := hf
  obtain rfl : sp = none := hs
  rw [handleMeasureClick_haveFirst ctx cur scp pv u1 u2 ms f mouse r hr,
    if_pos hclose]
  refine ⟨rfl, rfl, rfl, rfl, ?_⟩
  rw [handleMeasureClick_haveFirst ctx (some r) scp pv u1 u2 ms f mouse' r' hr',
    if_neg (not_lt.mpr hfar)]

/-- The full three-click interaction in measure mode: each click is
preceded by the mouse move that brings the pointer there. -/
def threeClickSequence (ctx : MeasureCtx) (st : MeasureToolState)
    (a b c : Vec2) : MeasureToolState :=
  handleMeasureClick ctx
    (handleMeasureMouseMove ctx
      (handleMeasureClick ctx
        (handleMeasureMouseMove ctx
          (handleMeasureClick ctx
            (handleMeasureMouseMove ctx st a) a) b) b) c) c

/-- What a three-click sequence from the empty state appends: one
measurement whose endpoints are the clamped resolved click positions,
whose distance is theirs, and whose offset is zero when the third click
is within tolerance of the second click's (unclamped) position and the
clamped pointer-derived preview offset otherwise. -/
lemma threeClickSequence_spec (ctx : MeasureCtx) (st : MeasureToolState)
    (a b c rA rB : Vec2)
    (hf : st.firstPoint = none) (hs : st.secondPoint = none)
    (hrA : resolveClick ctx a = some rA)
    (hrB : resolveClick ctx b = some rB)
    (hlen : MIN_DIMENSION_LENGTH_M ≤ distV (clampToCanvasBounds rA) rB) :
    (threeClickSequence ctx st a b c).measurements =
      st.measurements ++
        [⟨ctx.freshId, clampToCanvasBounds rA, clampToCanvasBounds rB,
          distV (clampToCanvasBounds rA) (clampToCanvasBounds rB),
          if distV c rB < SAME_POINT_TOLERANCE then 0
          else clampDimensionOffset
            (clampDimensionOffset
              (calculateDimensionOffset (clampToCanvasBounds rA)
                (clampToCanvasBounds rB) c) 20) 20,
          0.5⟩]
    ∧ (threeClickSequence ctx st a b c).firstPoint = none
    ∧ (threeClickSequence ctx st a b c).secondPoint = none := by
  obtain ⟨fp, sp, cur, scp, pv, u1, u2, ms⟩ := st
  obtain rfl : fp = none := hf
  obtain rfl : sp = none := hs
  rw [threeClickSequence,
    handleMeasureMouseMove_early ctx,
    handleMeasureClick_empty ctx _ _ _ _ _ _ _ _ _ hrA,
    handleMeasureMouseMove_early ctx,
    handleMeasureClick_haveFirst ctx _ _ _ _ _ _ _ _ _ hrB,
    if_neg (not_lt.mpr hlen),
    handleMeasureMouseMove_state3 ctx,
    handleMeasureClick_haveBoth ctx]
  exact ⟨rfl, rfl, rfl⟩

/-- A point lies in the drawing bounds inset by the 0.5 margin. -/
def inInsetBounds (p : Vec2) : Prop :=
  -(getDrawingBounds.1 / 2) + 0.5 ≤ p.x ∧ p.x ≤ getDrawingBounds.1 / 2 - 0.5 ∧
  -(getDrawingBounds.2 / 2) + 0.5 ≤ p.y ∧ p.y ≤ getDrawingBounds.2 / 2 - 0.5

lemma clampToCanvasBounds_eq_self (p : Vec2) (h : inInsetBounds p) :
    clampToCanvasBounds p = p := by
  obtain ⟨h1, h2, h3, h4⟩ := h
  rw [clampToCanvasBounds]
  ext
  · exact by dsimp; rw [min_eq_right h2, max_eq_right h1]
  · exact by dsimp; rw [min_eq_right h4, max_eq_right h3]

lemma clampToCanvasBounds_mem (p : Vec2) : inInsetBounds (clampToCanvasBounds p) := by
  rw [clampToCanvasBounds, inInsetBounds]
  refine ⟨le_max_left _ _, ?_, le_max_left _ _, ?_⟩
  · exact max_le (by rw [getDrawingBounds]; norm_num) (min_le_left _ _)
  · exact max_le (by rw [getDrawingBounds]; norm_num) (min_le_left _ _)

lemma clampDimensionOffset_idem (x : ℝ) :
    clampDimensionOffset (clampDimensionOffset x 20) 20 = clampDimensionOffset x 20 := by
  unfold clampDimensionOffset
  rw [min_eq_right (max_le (by norm_num) (min_le_left _ _)),
    max_eq_right (le_max_left _ _)]

/-- C4 (amended): for clicks A, B inside the drawing bounds inset by the
0.5 margin (so the canvas clamp is the identity) whose resolved positions
are the clicks themselves and with `|A-B| ≥ 0.3048`, the three-click
sequence produces exactly one new Measurement: distance `|A-B|`, offset 0
when C is within 0.15 of B and otherwise the signed perpendicular offset
of C from segment AB clamped to ±20; the machine returns to the empty
state. -/
theorem threeClick_measurement_spec (ctx : MeasureCtx) (st : MeasureToolState)
    (a b c : Vec2)
    (hf : st.firstPoint = none) (hs : st.secondPoint = none)
    (hrA : resolveClick ctx a = some a)
    (hrB : resolveClick ctx b = some b)
    (hAin : inInsetBounds a) (hBin : inInsetBounds b)
    (hlen : MIN_DIMENSION_LENGTH_M ≤ distV a b) :
    (threeClickSequence ctx st a b c).measurements =
      st.measurements ++
        [⟨ctx.freshId, a, b, distV a b,
          if distV c b < SAME_POINT_TOLERANCE then 0
          else clampDimensionOffset (calculateDimensionOffset a b c) 20,
          0.5⟩]
    ∧ (threeClickSequence ctx st a b c).firstPoint = none
    ∧ (threeClickSequence ctx st a b c).secondPoint = none := by
  have hca := clampToCanvasBounds_eq_self a hAin
  have hcb := clampToCanvasBounds_eq_self b hBin
  have h := threeClickSequence_spec ctx st a b c a b hf hs hrA hrB
      (by rw [hca]; exact hlen)
  rw [hca, hcb, clampDimensionOffset_idem] at h
  exact h

/-- C10: every measurement the three-click flow adds has its endpoints
equal to `clampToCanvasBounds` of the resolved first and second click
positions, and both endpoints lie within the drawing bounds inset by the
0.5 margin. -/
theorem threeClick_endpoints_clamped (ctx : MeasureCtx) (st : MeasureToolState)
    (a b c rA rB : Vec2)
    (hf : st.firstPoint = none) (hs : st.secondPoint = none)
    (hrA : resolveClick ctx a = some rA)
    (hrB : resolveClick ctx b = some rB)
    (hlen : MIN_DIMENSION_LENGTH_M ≤ distV (clampToCanvasBounds rA) rB) :
    ∀ m ∈ (threeClickSequence ctx st a b c).measurements,
      m ∈ st.measurements ∨
      (m.startPoint = clampToCanvasBounds rA ∧ m.endPoint = clampToCanvasBounds rB ∧
       inInsetBounds m.startPoint ∧ inInsetBounds m.endPoint) := by
  intro m hm
  rw [(threeClickSequence_spec ctx st a b c rA rB hf hs hrA hrB hlen).1] at hm
  rcases List.mem_append.mp hm with h | h
  · exact Or.inl h
  · right
    rw [List.mem_singleton] at h
    subst h
    exact ⟨rfl, rfl, clampToCanvasBounds_mem rA, clampToCanvasBounds_mem rB⟩

/-- A measure context with no snap features, free measurement allowed,
default offset 1 and fresh id 5. -/
def exMeasureCtx : MeasureCtx := ⟨⟨true, false, [], []⟩, true, 1, 5, fun _ => none⟩

/-- The measure tool's state right after `startMeasureMode`. -/
def exToolInit : MeasureToolState := ⟨none, none, none, none, 1, none, none, []⟩

/-- The measure tool's state holding a first point at the origin. -/
def exHaveFirst : MeasureToolState :=
  ⟨some ⟨0, 0⟩, none, some ⟨0, 0⟩, none, 1, none, none, []⟩

lemma resolveClick_exMeasureCtx (p : Vec2) : resolveClick exMeasureCtx p = some p := rfl

/-- Witness for C8: with a first point at the origin, a click resolving
to (0.1, 0) is rejected (distance 0.1 < 0.3048) leaving the machine
unchanged, and a follow-up click at (1, 0) sets the second point. -/
theorem handleMeasureClick_min_length_noop_witness :
    (handleMeasureClick exMeasureCtx exHaveFirst ⟨0.1, 0⟩).firstPoint = some ⟨0, 0⟩
    ∧ (handleMeasureClick exMeasureCtx exHaveFirst ⟨0.1, 0⟩).secondPoint = none
    ∧ (handleMeasureClick exMeasureCtx exHaveFirst ⟨0.1, 0⟩).secondClickPosition
        = exHaveFirst.secondClickPosition
    ∧ (handleMeasureClick exMeasureCtx exHaveFirst ⟨0.1, 0⟩).measurements
        = exHaveFirst.measurements
    ∧ (handleMeasureClick exMeasureCtx
          (handleMeasureClick exMeasureCtx exHaveFirst ⟨0.1, 0⟩) ⟨1, 0⟩).secondPoint
        = some (clampToCanvasBounds ⟨1, 0⟩) :=
  handleMeasureClick_min_length_noop exMeasureCtx exHaveFirst
    ⟨0, 0⟩ ⟨0.1, 0⟩ ⟨1, 0⟩ ⟨0.1, 0⟩ ⟨1, 0⟩ rfl rfl
    (resolveClick_exMeasureCtx _)
    (by
      rw [show distV ⟨0, 0⟩ ⟨0.1, 0⟩ = 0.1 from
          distV_of_sq (by norm_num) (by norm_num), MIN_DIMENSION_LENGTH_M]
      norm_num)
    (resolveClick_exMeasureCtx _)
    (by
      rw [show distV ⟨0, 0⟩ ⟨1, 0⟩ = 1 from
          distV_of_sq (by norm_num) (by norm_num), MIN_DIMENSION_LENGTH_M]
      norm_num)

/-- Witness for the amended C4: clicks at (0,0) and (1,0), third click on
the second point, giving the single measurement of distance 1 with offset
forced to 0. -/
theorem threeClick_measurement_spec_witness :
    (threeClickSequence exMeasureCtx exToolInit ⟨0, 0⟩ ⟨1, 0⟩ ⟨1, 0⟩).measurements
      = [⟨5, ⟨0, 0⟩, ⟨1, 0⟩, 1, 0, 0.5⟩] := by
  have hab : distV ⟨0, 0⟩ ⟨1, 0⟩ = 1 := distV_of_sq (by norm_num) (by norm_num)
  have hcb : distV ⟨1, 0⟩ ⟨1, 0⟩ = 0 := distV_of_sq (by norm_num) (by norm_num)
  have h := (threeClick_measurement_spec exMeasureCtx exToolInit ⟨0, 0⟩ ⟨1, 0⟩ ⟨1, 0⟩
      rfl rfl (resolveClick_exMeasureCtx _) (resolveClick_exMeasureCtx _)
      (by rw [inInsetBounds, getDrawingBounds]; norm_num)
      (by rw [inInsetBounds, getDrawingBounds]; norm_num)
      (by rw [hab, MIN_DIMENSION_LENGTH_M]; norm_num)).1
  rw [hab, hcb, if_pos (by rw [SAME_POINT_TOLERANCE]; norm_num)] at h
  exact h

/-- Counterexample to C4 as stated: first click at A = (25, 0) (outside
the drawing bounds), B = C = (0, 0).  The pair satisfies the claim's
premise `|A-B| = 25 ≥ 0.3048`, the sequence produces exactly one
measurement, but its stored distance is 19.5 (A is clamped to (19.5, 0)
first), not `|A-B| = 25`. -/
theorem threeClick_distance_counterexample :
    MIN_DIMENSION_LENGTH_M ≤ distV ⟨25, 0⟩ ⟨0, 0⟩
    ∧ distV ⟨25, 0⟩ ⟨0, 0⟩ = 25
    ∧ (threeClickSequence exMeasureCtx exToolInit ⟨25, 0⟩ ⟨0, 0⟩ ⟨0, 0⟩).measurements
        = [⟨5, ⟨19.5, 0⟩, ⟨0, 0⟩, 19.5, 0, 0.5⟩]
    ∧ (19.5 : ℝ) ≠ 25 := by
  have h25 : distV ⟨25, 0⟩ ⟨0, 0⟩ = 25 := distV_of_sq (by norm_num) (by norm_num)
  have hclampA : clampToCanvasBounds ⟨25, 0⟩ = ⟨19.5, 0⟩ := by
    rw [clampToCanvasBounds, getDrawingBounds]
    norm_num [min_def, max_def]
  have hclampB : clampToCanvasBounds ⟨0, 0⟩ = ⟨0, 0⟩ :=
    clampToCanvasBounds_eq_self _ (by rw [inInsetBounds, getDrawingBounds]; norm_num)
  have hd : distV ⟨19.5, 0⟩ ⟨0, 0⟩ = 19.5 := distV_of_sq (by norm_num) (by norm_num)
  have h0 : distV ⟨0, 0⟩ ⟨0, 0⟩ = 0 := distV_of_sq (by norm_num) (by norm_num)
  have h := (threeClickSequence_spec exMeasureCtx exToolInit ⟨25, 0⟩ ⟨0, 0⟩ ⟨0, 0⟩
      ⟨25, 0⟩ ⟨0, 0⟩ rfl rfl (resolveClick_exMeasureCtx _) (resolveClick_exMeasureCtx _)
      (by rw [hclampA, hd, MIN_DIMENSION_LENGTH_M]; norm_num)).1
  rw [hclampA, hclampB, hd, h0, if_pos (by rw [SAME_POINT_TOLERANCE]; norm_num)] at h
  refine ⟨by rw [h25, MIN_DIMENSION_LENGTH_M]; norm_num, h25, h, by norm_num⟩

/-- Witness for C10: a first click resolving outside the bounds at
(-25, 0) and a second at (0, 0); the stored measurement's endpoints are
the clamped click positions and lie in the inset bounds. -/
theorem threeClick_endpoints_clamped_witness :
    (⟨5, ⟨-19.5, 0⟩, ⟨0, 0⟩, 19.5, 0, 0.5⟩ : Measurement) ∈ exToolInit.measurements
    ∨ ((⟨5, ⟨-19.5, 0⟩, ⟨0, 0⟩, 19.5, 0, 0.5⟩ : Measurement).startPoint
          = clampToCanvasBounds ⟨-25, 0⟩
       ∧ (⟨5, ⟨-19.5, 0⟩, ⟨0, 0⟩, 19.5, 0, 0.5⟩ : Measurement).endPoint
          = clampToCanvasBounds ⟨0, 0⟩
       ∧ inInsetBounds (⟨5, ⟨-19.5, 0⟩, ⟨0, 0⟩, 19.5, 0, 0.5⟩ : Measurement).startPoint
       ∧ inInsetBounds (⟨5, ⟨-19.5, 0⟩, ⟨0, 0⟩, 19.5, 0, 0.5⟩ : Measurement).endPoint) := by
  have hclampA : clampToCanvasBounds ⟨-25, 0⟩ = ⟨-19.5, 0⟩ := by
    rw [clampToCanvasBounds, getDrawingBounds]
    norm_num [min_def, max_def]
  have hclampB : clampToCanvasBounds ⟨0, 0⟩ = ⟨0, 0⟩ :=
    clampToCanvasBounds_eq_self _ (by rw [inInsetBounds, getDrawingBounds]; norm_num)
  have hd : distV ⟨-19.5, 0⟩ ⟨0, 0⟩ = 19.5 := distV_of_sq (by norm_num) (by norm_num)
  have h0 : distV ⟨0, 0⟩ ⟨0, 0⟩ = 0 := distV_of_sq (by norm_num) (by norm_num)
  have hlen : MIN_DIMENSION_LENGTH_M ≤ distV (clampToCanvasBounds ⟨-25, 0⟩) ⟨0, 0⟩ := by
    rw [hclampA, hd, MIN_DIMENSION_LENGTH_M]
    norm_num
  have hmem : (⟨5, ⟨-19.5, 0⟩, ⟨0, 0⟩, 19.5, 0, 0.5⟩ : Measurement) ∈
      (threeClickSequence exMeasureCtx exToolInit ⟨-25, 0⟩ ⟨0, 0⟩ ⟨0, 0⟩).measurements := by
    rw [(threeClickSequence_spec exMeasureCtx exToolInit ⟨-25, 0⟩ ⟨0, 0⟩ ⟨0, 0⟩
        ⟨-25, 0⟩ ⟨0, 0⟩ rfl rfl (resolveClick_exMeasureCtx _)
        (resolveClick_exMeasureCtx _) hlen).1,
      hclampA, hclampB, hd, h0, if_pos (by rw [SAME_POINT_TOLERANCE]; norm_num)]
    simp [exToolInit, exMeasureCtx]
  exact threeClick_endpoints_clamped exMeasureCtx exToolInit ⟨-25, 0⟩ ⟨0, 0⟩ ⟨0, 0⟩
    ⟨-25, 0⟩ ⟨0, 0⟩ rfl rfl (resolveClick_exMeasureCtx _)
    (resolveClick_exMeasureCtx _) hlen _ hmem

end

end Drafting
